import Mathlib

/-!
Verification development for the buildbot master coordinator
(`master/buildbot/master.py`): a shallow embedding of the configuration
loader (`BuildMaster.loadConfig` and its `loadConfig_*` steps), the
database change poller (`BuildMaster.pollDatabaseChanges`), the change
ingestion entry point (`BuildMaster.addChange`) and the `Control` facade,
together with theorems about them.

Python evaluation is embedded as follows: a method that can raise returns
`Except PyErr`, mutable attributes of the `BuildMaster` instance are fields
of `MasterState`, externally visible actions (bus deliveries, timer
installation, durable writes) are recorded in an event trace `List Ev`,
and outcomes of calls into external collaborators (the database connector,
`BotMaster`, the scheduler manager) are inputs drawn from an `Env` record.
-/

deriving instance DecidableEq for Except

namespace Buildbot

/-- A Python exception, by class and message. -/
inductive PyErr
  | keyError (msg : String)
  | valueError (msg : String)
  | assertionError (msg : String)
  | attributeError (msg : String)
  | typeError (msg : String)
  | databaseNotReady
deriving DecidableEq, Repr

/-- Whether an exception falls under the ConfigSchemaError taxonomy of the spec
(the KeyError / ValueError / AssertionError raises of the validation
phase). -/
def PyErr.isSchemaError : PyErr → Bool
  | .keyError _ => true
  | .valueError _ => true
  | .assertionError _ => true
  | _ => false

/-- A dynamically typed Python value, for config keys whose type the source
checks at run time. -/
inductive PyVal
  | pyNone
  | pyInt (n : Int)
  | pyBool (b : Bool)
  | pyStr (s : String)
  | pyCallable (id : Nat)
deriving DecidableEq, Repr

/-- Python truthiness of a `PyVal`. -/
def PyVal.truthy : PyVal → Bool
  | .pyNone => false
  | .pyInt n => n != 0
  | .pyBool b => b
  | .pyStr s => !s.isEmpty
  | .pyCallable _ => true

/-- The `self.db_poll_interval` attribute: the class-level `_Unset` sentinel
until the first `loadConfig_Database`, then the configured value. -/
inductive DbPoll
  | unset
  | set (v : PyVal)
deriving DecidableEq, Repr

/-- The `_Unset` sentinel is a class object, hence truthy in Python. -/
def DbPoll.truthy : DbPoll → Bool
  | .unset => true
  | .set v => v.truthy

/-- A row of the changes table: a change with its integer `changeid`. -/
structure Change where
  changeid : Nat
  who : String
deriving DecidableEq, Repr

/-- The keyword arguments of `addChange`, abstracted. -/
structure ChangeFields where
  who : String
  comments : String
deriving DecidableEq, Repr

/-- Events observable outside the coordinator: bus deliveries, timers,
durable state writes, and the entry into each reconfiguration step. -/
inductive TimerKind
  | pollDatabase
  | wakeBuildLoop
deriving DecidableEq, Repr

/-- The seven named reconfiguration steps of `loadConfig`. -/
inductive StepName
  | database
  | slaves
  | builders
  | statusTargets
  | schedulers
  | changeSources
  | debugClient
deriving DecidableEq, Repr

inductive Ev
  | step (s : StepName)
  | subscribeStatusToChanges
  | subscribeTriggerToBuildsets
  | installTimer (k : TimerKind) (interval : PyVal)
  | manholeDetached
  | manholeAttached
  | unregisterDebugClient
  | registerDebugClient
  | setReadConfig
  | triggerLoop
  | dbWrite (f : ChangeFields)
  | bsWrite (fields : Nat)
  | deliverChange (c : Change)
  | deliverBuildset (bsid : Nat)
  | deliverBuildsetComplete (bsid : Nat) (result : Int)
  | setMarkMem (v : Option Nat)
  | setState (v : Nat)
deriving DecidableEq, Repr

/-! ## The database change poller (`pollDatabaseChanges`) -/

/-- Modelled from the spec: `db.changes.getChangeInstance(changeid)` is the
database fetch of the change row with the given primary key; the connector
code is not under src/. The table is embedded as a list of rows. -/
def getChangeInstance (db : List Change) (cid : Nat) : Option Change :=
  db.find? (fun c => c.changeid == cid)

/-- Largest changeid present in the table (0 for an empty table). -/
def maxChangeid (db : List Change) : Nat :=
  db.foldr (fun c acc => max c.changeid acc) 0

/-- Modelled from the spec: `db.changes.getLatestChangeid()` returns the
maximum changeid, or None when the changes table is empty; the connector
code is not under src/. -/
def getLatestChangeid (db : List Change) : Option Nat :=
  match db with
  | [] => none
  | _ => some (maxChangeid db)

/-- The `while True` loop of `pollDatabaseChanges` (lines 829-844): fetch
the change at `mark + 1`; if present, deliver it on the changes bus,
advance the in-memory mark, set `need_setState`, and continue. Returns
the event trace, the final mark, and the `need_setState` contribution. -/
def pollLoop (db : List Change) (mark : Nat) : List Ev × Nat × Bool :=
  match h : getChangeInstance db (mark + 1) with
  | none => ([], mark, false)
  | some c =>
    let r := pollLoop db (mark + 1)
    (Ev.deliverChange c :: Ev.setMarkMem (some (mark + 1)) :: r.1, r.2.1, true)
termination_by maxChangeid db - mark
decreasing_by
  simp only [getChangeInstance] at h
  have hmem : c ∈ db := List.mem_of_find?_eq_some h
  have hp := List.find?_some h
  have hid : c.changeid = mark + 1 := by simpa using hp
  have hle : c.changeid ≤ maxChangeid db := by
    clear h hp hid
    revert hmem
    induction db with
    | nil => intro hmem; cases hmem
    | cons a l ih =>
      intro hmem
      rcases List.mem_cons.mp hmem with hh | hh
      · subst hh
        simp only [maxChangeid, List.foldr]
        omega
      · have := ih hh
        simp only [maxChangeid, List.foldr] at *
        omega
  omega

/-- `BuildMaster.pollDatabaseChanges` (one invocation): takes the changes
table, the in-memory `_last_processed_change` mark, and the durable
`last_processed_change` value stored via the StateStore; returns the event
trace, the new in-memory mark, and the new stored value. -/
def pollDatabaseChanges (db : List Change) (mem stored : Option Nat) :
    List Ev × Option Nat × Option Nat :=
  match mem with
  | some m =>
    let r := pollLoop db m
    if r.2.2 then (r.1 ++ [Ev.setState r.2.1], some r.2.1, some r.2.1)
    else (r.1, some r.2.1, stored)
  | none =>
    match stored with
    | some m =>
      let r := pollLoop db m
      if r.2.2 then
        (Ev.setMarkMem (some m) :: r.1 ++ [Ev.setState r.2.1],
         some r.2.1, some r.2.1)
      else (Ev.setMarkMem (some m) :: r.1, some r.2.1, stored)
    | none =>
      match getLatestChangeid db with
      | some l =>
        let r := pollLoop db l
        (Ev.setMarkMem none :: Ev.setMarkMem (some l) :: r.1
           ++ [Ev.setState r.2.1],
         some r.2.1, some r.2.1)
      | none => ([Ev.setMarkMem none, Ev.setMarkMem none], none, stored)

/-- The changes delivered on the `changes` bus in a trace, in order. -/
def delivered (evs : List Ev) : List Change :=
  evs.filterMap (fun e =>
    match e with
    | Ev.deliverChange c => some c
    | _ => none)

/-! ## Configuration data model -/

/-- A lock object; `ident` models Python object identity, so two `Lock`
values are equal exactly when they are the same object (`is`). -/
structure Lock where
  ident : Nat
  name : String
deriving DecidableEq, Repr

/-- A lock reference in a builder or build-factory step: either a bare lock
or a `LockAccess` wrapper, whose `lockid` is the underlying lock. -/
inductive LockRef
  | lockObj (l : Lock)
  | lockAccess (l : Lock)
deriving DecidableEq, Repr

/-- Unwrapping done at lines 398-399 and 412-413: a `LockAccess` is
replaced by its `lockid`. -/
def lockRefId : LockRef → Lock
  | .lockObj l => l
  | .lockAccess l => l

/-- A builder entry after conversion to a config dictionary: optional keys
are `Option`. -/
structure BuilderSpec where
  name : String
  builddir : Option String
  slavebuilddir : Option String
  slavename : Option String
  slavenames : List String
  locks : List LockRef
  factoryStepLocks : List (List LockRef)
  category : Option String
deriving DecidableEq, Repr

/-- An entry of the builders config list: a `BuilderConfig` object (whose
`getConfigDict` yields a dictionary), a plain dictionary, or anything
else (rejected at line 336). -/
inductive BuilderEntry
  | cfgObj (b : BuilderSpec)
  | dictObj (b : BuilderSpec)
  | badObj
deriving DecidableEq, Repr

/-- A builder dictionary after the defaulting at lines 361-365. -/
structure NormBuilder where
  name : String
  builddir : String
  slavebuilddir : String
  slavename : Option String
  slavenames : List String
  locks : List LockRef
  factoryStepLocks : List (List LockRef)
  category : Option String
deriving DecidableEq, Repr

/-- All lock references carried by a builder, in the order the source
walks them: the locks entry of the builder first, then each factory step. -/
def lockRefsOfBuilder (b : NormBuilder) : List LockRef :=
  b.locks ++ b.factoryStepLocks.flatten

/-- A scheduler spec: its name and `listBuilderNames()`. -/
structure SchedSpec where
  name : String
  builderNames : List String
deriving DecidableEq, Repr

/-- A slave spec (`BuildSlave`): only its `slavename` matters here. -/
structure SlaveSpec where
  slavename : String
deriving DecidableEq, Repr

/-- The slavePortnum config key: a bare integer or a strports string. -/
inductive PortVal
  | intPort (n : Int)
  | strPort (s : String)
deriving DecidableEq, Repr

/-- Coercion at lines 426-427: a bare integer N becomes "tcp:N". -/
def portString : PortVal → String
  | .intPort n => "tcp:" ++ toString n
  | .strPort s => s

/-- The `BuildmasterConfig` dictionary as extracted by `loadConfig`.
Required keys are `Option` (`none` models a missing key); keys whose type
the source checks dynamically are `PyVal`; presence of the deprecated keys
`sources`, `bots`, `interlocks` and the well-typedness of `properties` are
booleans. Change sources and status targets are identified by tokens. -/
structure RawConfig where
  schedulers : Option (List SchedSpec)
  builders : Option (List BuilderEntry)
  slavePortnum : Option PortVal
  slaves : Option (List SlaveSpec)
  change_source : List Nat
  status : List Nat
  db_url : Option String
  db_poll_interval : PyVal
  logCompressionLimit : PyVal
  logCompressionMethod : String
  logMaxSize : PyVal
  logMaxTailSize : PyVal
  mergeRequests : PyVal
  prioritizeBuilders : PyVal
  changeHorizon : PyVal
  multiMaster : Bool
  hasSources : Bool
  hasBots : Bool
  hasInterlocks : Bool
  propertiesIsDict : Bool
  debugPassword : Option String
  manhole : Option Nat
deriving Repr

/-- The state of the database connector owned by the master. -/
structure DbState where
  changeHorizon : Option Int
deriving DecidableEq, Repr

/-- The mutable attributes of the `BuildMaster` instance that the embedded
operations read or write. Builders live in `botmaster.builders`, keyed by
name; change sources and status targets are identified by tokens. -/
structure MasterState where
  db : Option DbState
  db_url : Option String
  db_poll_interval : DbPoll
  change_svc_changeHorizon : Option Int
  change_svc_sources : List Nat
  statusTargets : List Nat
  botmaster_builders : List (String × NormBuilder)
  schedulerNames : List String
  manhole : Option Nat
  debugClientRegistration : Option String
  readConfig : Bool
deriving DecidableEq, Repr

/-- Outcomes of the calls `loadConfig` makes into external collaborators
(the schema probe, `BotMaster`, the scheduler manager, service teardown):
`none` means the returned deferred succeeds, `some e` that it fails. -/
structure Env where
  dbSchemaCurrent : Bool
  slavesResult : Option PyErr
  builderChanged : String → Bool
  setBuildersResult : Option PyErr
  statusResult : Option PyErr
  schedulersResult : Option PyErr
  sourcesResult : Option PyErr

/-- The configuration values that survive validation and drive the apply
steps. -/
structure ValidatedConfig where
  db_url : String
  db_poll_interval : PyVal
  slaves : List SlaveSpec
  builders : List NormBuilder
  schedulers : List SchedSpec
  change_sources : List Nat
  status : List Nat
  slavePortnum : String
  debugPassword : Option String
  manhole : Option Nat
deriving DecidableEq, Repr

/-! ## Validation (`loadConfig` lines 219-431) -/

/-- `if cond: raise err` - the validation idiom: fail with `err` when the
condition holds, otherwise continue. -/
def guardP (c : Prop) [Decidable c] (err : PyErr) : Except PyErr Unit :=
  if c then .error err else .ok ()

/-- Sequencing of fallible statements: a raised exception aborts the rest
of the body. -/
def andThenE {α β : Type} (x : Except PyErr α) (f : α → Except PyErr β) :
    Except PyErr β :=
  match x with
  | .error e => .error e
  | .ok a => f a

/-- `x is None or isinstance(x, int)`. -/
def noneOrInt : PyVal → Bool
  | .pyNone => true
  | .pyInt _ => true
  | _ => false

/-- `mergeRequests in (None, False) or callable(mergeRequests)`. -/
def mergeRequestsOk : PyVal → Bool
  | .pyNone => true
  | .pyBool false => true
  | .pyCallable _ => true
  | _ => false

/-- `prioritizeBuilders is None or callable(prioritizeBuilders)`. -/
def prioritizeBuildersOk : PyVal → Bool
  | .pyNone => true
  | .pyCallable _ => true
  | _ => false

/-- The checks of lines 219-288 in source order: required keys, the typed
optional keys, the deprecated keys `sources` and `bots`, and the presence
of the `slaves` key. Interface assertions (`IBuildSlave` and friends) are
enforced by the types of the embedding and have no run-time counterpart here. -/
def validatePre (cfg : RawConfig) : Except PyErr Unit :=
  andThenE (guardP cfg.schedulers.isNone
    (.keyError "config dictionary is missing a required parameter")) fun _ =>
  andThenE (guardP cfg.builders.isNone
    (.keyError "config dictionary is missing a required parameter")) fun _ =>
  andThenE (guardP cfg.slavePortnum.isNone
    (.keyError "config dictionary is missing a required parameter")) fun _ =>
  andThenE (guardP (¬ noneOrInt cfg.logCompressionLimit)
    (.valueError "logCompressionLimit needs to be bool or int")) fun _ =>
  andThenE (guardP (¬ (cfg.logCompressionMethod = "bz2"
      ∨ cfg.logCompressionMethod = "gz"))
    (.valueError "logCompressionMethod needs to be bz2 or gz")) fun _ =>
  andThenE (guardP (¬ noneOrInt cfg.logMaxSize)
    (.valueError "logMaxSize needs to be None or int")) fun _ =>
  andThenE (guardP (¬ noneOrInt cfg.logMaxTailSize)
    (.valueError "logMaxTailSize needs to be None or int")) fun _ =>
  andThenE (guardP (¬ mergeRequestsOk cfg.mergeRequests)
    (.valueError "mergeRequests must be a callable or False")) fun _ =>
  andThenE (guardP (¬ prioritizeBuildersOk cfg.prioritizeBuilders)
    (.valueError "prioritizeBuilders must be callable")) fun _ =>
  andThenE (guardP (¬ noneOrInt cfg.changeHorizon)
    (.valueError "changeHorizon needs to be an int")) fun _ =>
  andThenE (guardP cfg.hasSources
    (.keyError "sources is deprecated; use change_source instead")) fun _ =>
  andThenE (guardP cfg.hasBots
    (.keyError "bots is deprecated; use slaves instead")) fun _ =>
  guardP cfg.slaves.isNone (.keyError "must have a slaves key")

/-- Lines 290-293: when `changeHorizon` is not None it is written to
`self.change_svc.changeHorizon` and then to `self.db.changeHorizon` -
before any of the validation at lines 301 onward runs. On a first load
`self.db` is still None, so the second write raises `AttributeError`
after the first has already taken effect. The preceding type check
restricts the value to None or an int. -/
def applyChangeHorizon (st : MasterState) (v : PyVal) :
    Except PyErr Unit × MasterState :=
  match v with
  | .pyInt n =>
    let st1 := { st with change_svc_changeHorizon := some n }
    match st1.db with
    | none =>
      (.error (.attributeError "NoneType object has no attribute changeHorizon"),
       st1)
    | some d =>
      (.ok (), { st1 with db := some { d with changeHorizon := some n } })
  | _ => (.ok (), st)

/-- The slave-name loop of lines 302-306: reserved names are rejected. -/
def checkSlavesReserved : List SlaveSpec → Except PyErr Unit
  | [] => .ok ()
  | s :: rest =>
    if s.slavename = "debug" ∨ s.slavename = "change" ∨ s.slavename = "status" then
      .error (.keyError "reserved name used for a bot")
    else checkSlavesReserved rest

/-- Modelled from the spec: slave-name uniqueness. The spec (section 3)
lists "Slave names unique and not reserved" among the invariants enforced
during validation, failing the load and keeping the old config live; the
code enforcing uniqueness lives outside src/ (the worker registry), so it
is modelled here as a validation check next to the reserved-name loop. -/
def checkSlavesUnique (slaves : List SlaveSpec) : Except PyErr Unit :=
  if (slaves.map SlaveSpec.slavename).Nodup then .ok ()
  else .error (.keyError "duplicate slave name")

/-- The assertions of lines 309-314: `db_url` cannot change once set,
`db_poll_interval` must be None or an int and cannot change once set. -/
def checkDbSettings (st : MasterState) (dburl : String) (pollv : PyVal) :
    Except PyErr Unit :=
  andThenE (match st.db_url with
    | some u => guardP (dburl ≠ u)
        (.assertionError "Cannot change db_url after master has started")
    | none => .ok ()) fun _ =>
  andThenE (guardP (¬ noneOrInt pollv)
    (.assertionError "db_poll_interval must be an integer")) fun _ =>
  match st.db_poll_interval with
  | .set w => guardP (pollv ≠ w)
      (.assertionError "Cannot change db_poll_interval after master has started")
  | .unset => .ok ()

/-- Conversion of builder entries at lines 329-337. -/
def convertBuilders : List BuilderEntry → Except PyErr (List BuilderSpec)
  | [] => .ok []
  | .cfgObj b :: rest =>
    andThenE (convertBuilders rest) fun r => .ok (b :: r)
  | .dictObj b :: rest =>
    andThenE (convertBuilders rest) fun r => .ok (b :: r)
  | .badObj :: _ =>
    .error (.valueError "builder is not a BuilderConfig object or a dict")

/-- Modelled from the spec: `buildbot.util.safeTranslate` is not under
src/; the spec only requires a safe-translation function deriving a build
directory from a builder name. Characters other than ASCII alphanumerics
and underscore map to underscore. -/
def safeTranslate (s : String) : String :=
  String.mk (s.data.map (fun ch =>
    if ch.isAlphanum ∨ ch = '_' then ch else '_'))

/-- Python `name.startswith("_")`: the first character is an
underscore. -/
def startsWithUnderscore (s : String) : Bool :=
  match s.data with
  | [] => false
  | c :: _ => c = '_'

/-- The builder loop of lines 339-369, threading the `buildernames` and
`dirnames` accumulators: per builder, in source order, the `slavename`
reference check, the `slavenames` reference checks, the duplicate-name
check, the reserved-underscore check, the defaulting of `builddir` and
`slavebuilddir`, and the duplicate-builddir check. -/
def checkBuildersGo (slavenames : List String) (names dirs : List String) :
    List BuilderSpec → Except PyErr (List NormBuilder)
  | [] => .ok []
  | b :: rest =>
    andThenE (match b.slavename with
      | some sn => guardP (sn ∉ slavenames)
          (.valueError "builder uses undefined slave")
      | none => .ok ()) fun _ =>
    andThenE (guardP (∃ n ∈ b.slavenames, n ∉ slavenames)
      (.valueError "builder uses undefined slave")) fun _ =>
    andThenE (guardP (b.name ∈ names)
      (.valueError "duplicate builder name")) fun _ =>
    andThenE (guardP (startsWithUnderscore b.name)
      (.valueError "builder names must not start with an underscore")) fun _ =>
    let dir := b.builddir.getD (safeTranslate b.name)
    andThenE (guardP (dir ∈ dirs)
      (.valueError "builder reuses builddir")) fun _ =>
    let nb : NormBuilder :=
      { name := b.name
        builddir := dir
        slavebuilddir := b.slavebuilddir.getD dir
        slavename := b.slavename
        slavenames := b.slavenames
        locks := b.locks
        factoryStepLocks := b.factoryStepLocks
        category := b.category }
    andThenE (checkBuildersGo slavenames (names ++ [b.name]) (dirs ++ [dir])
      rest) fun r =>
    .ok (nb :: r)

/-- The scheduler loop of lines 371-386: builder references must be
declared (skipped under multiMaster), scheduler names must be unique. -/
def checkSchedulersGo (multiMaster : Bool) (buildernames : List String)
    (seen : List String) : List SchedSpec → Except PyErr Unit
  | [] => .ok ()
  | s :: rest =>
    andThenE (guardP (multiMaster = false
        ∧ ∃ b ∈ s.builderNames, b ∉ buildernames)
      (.assertionError "scheduler uses unknown builder")) fun _ =>
    andThenE (guardP (s.name ∈ seen)
      (.valueError "Schedulers must have unique names")) fun _ =>
    checkSchedulersGo multiMaster buildernames (seen ++ [s.name]) rest

/-- Lookup in the `lock_dict` accumulator (a Python dict keyed by lock
name; at most one entry per name is ever inserted). -/
def lookupLock : List (String × Lock) → String → Option Lock
  | [], _ => none
  | p :: rest, n => if p.1 = n then some p.2 else lookupLock rest n

/-- One inner pass of the lock check (lines 397-406 and 410-420): each
reference is unwrapped, then compared by object identity against any
previously seen lock of the same name. -/
def addLocks (dict : List (String × Lock)) :
    List LockRef → Except PyErr (List (String × Lock))
  | [] => .ok dict
  | r :: rest =>
    let l := lockRefId r
    match lookupLock dict l.name with
    | some l2 =>
      if l2 ≠ l then
        .error (.valueError "Two different locks share the name")
      else addLocks dict rest
    | none => addLocks ((l.name, l) :: dict) rest

/-- The outer lock loop of lines 395-420 over all builders. -/
def checkLocksGo (dict : List (String × Lock)) :
    List NormBuilder → Except PyErr (List (String × Lock))
  | [] => .ok dict
  | b :: rest =>
    andThenE (addLocks dict (lockRefsOfBuilder b)) fun d2 =>
    checkLocksGo d2 rest

/-- The validation of lines 295-427 that runs after the changeHorizon
write: slave names, the deprecated `interlocks` key, the db settings
assertions, builder conversion and the builder loop, the scheduler loop,
the lock check, the `properties` type check and the `slavePortnum`
coercion. -/
def validateMain (st : MasterState) (cfg : RawConfig) :
    Except PyErr ValidatedConfig :=
  let slaves := cfg.slaves.getD []
  andThenE (checkSlavesReserved slaves) fun _ =>
  andThenE (checkSlavesUnique slaves) fun _ =>
  andThenE (guardP cfg.hasInterlocks
    (.keyError "interlocks is no longer accepted")) fun _ =>
  let dburl := cfg.db_url.getD "sqlite:///state.sqlite"
  andThenE (checkDbSettings st dburl cfg.db_poll_interval) fun _ =>
  let slavenames := slaves.map SlaveSpec.slavename
  andThenE (convertBuilders (cfg.builders.getD [])) fun bspecs =>
  andThenE (checkBuildersGo slavenames [] [] bspecs) fun nbs =>
  andThenE (checkSchedulersGo cfg.multiMaster (nbs.map NormBuilder.name) []
    (cfg.schedulers.getD [])) fun _ =>
  andThenE (checkLocksGo [] nbs) fun _ =>
  andThenE (guardP (¬ cfg.propertiesIsDict)
    (.valueError "properties must be a dictionary")) fun _ =>
  .ok
    { db_url := dburl
      db_poll_interval := cfg.db_poll_interval
      slaves := slaves
      builders := nbs
      schedulers := cfg.schedulers.getD []
      change_sources := cfg.change_source
      status := cfg.status
      slavePortnum := portString (cfg.slavePortnum.getD (.strPort ""))
      debugPassword := cfg.debugPassword
      manhole := cfg.manhole }

/-- The whole validation phase of `loadConfig`, including the state
mutation of lines 290-293 that precedes most checks. -/
def loadConfigValidate (st : MasterState) (cfg : RawConfig) :
    Except PyErr ValidatedConfig × MasterState :=
  match validatePre cfg with
  | .error e => (.error e, st)
  | .ok () =>
    match applyChangeHorizon st cfg.changeHorizon with
    | (.error e, st1) => (.error e, st1)
    | (.ok (), st1) =>
      match validateMain st1 cfg with
      | .error e => (.error e, st1)
      | .ok v => (.ok v, st1)

/-! ## The apply phase (`loadConfig` lines 433-513 and the `loadConfig_*`
methods) -/

/-- The result of one reconfiguration step or of the whole chain. -/
abbrev StepRes := Except PyErr Unit × MasterState × List Ev

/-- `BuildMaster.loadDatabase` (lines 516-566): a no-op when the connector
already exists; otherwise the connector is constructed and started, the
schema currency probe runs (failing with the upgrade error when stale),
the status and botmaster observers are subscribed to the buses, and - only
when `db_poll_interval` is truthy - the two periodic timers are
installed. -/
def loadDatabase (st : MasterState) (env : Env) (dbpoll : PyVal) : StepRes :=
  match st.db with
  | some _ => (.ok (), st, [])
  | none =>
    let st1 := { st with db := some { changeHorizon := none } }
    if !env.dbSchemaCurrent then (.error .databaseNotReady, st1, [])
    else
      let evs := [Ev.subscribeStatusToChanges, Ev.subscribeTriggerToBuildsets]
      let evs := evs ++
        (if dbpoll.truthy then
          [Ev.installTimer .pollDatabase dbpoll,
           Ev.installTimer .wakeBuildLoop dbpoll]
        else [])
      (.ok (), st1, evs)

/-- `BuildMaster.loadConfig_Database` (lines 568-571): records `db_url`
and `db_poll_interval` on the master, then runs `loadDatabase`. -/
def loadConfig_Database (env : Env) (dburl : String) (dbpoll : PyVal)
    (st : MasterState) : StepRes :=
  let st1 := { st with db_url := some dburl, db_poll_interval := .set dbpoll }
  let r := loadDatabase st1 env dbpoll
  (r.1, r.2.1, Ev.step .database :: r.2.2)

/-- `BuildMaster.loadConfig_Slaves` (lines 573-574): delegates to
`BotMaster.loadConfig_Slaves`, an external collaborator. -/
def loadConfig_Slaves (env : Env) (st : MasterState) : StepRes :=
  match env.slavesResult with
  | some e => (.error e, st, [Ev.step .slaves])
  | none => (.ok (), st, [Ev.step .slaves])

/-- The inline manhole handling of lines 473-486: when the configured
manhole differs from the live one, the old service is detached and the
new one attached. -/
def applyManhole (m : Option Nat) (st : MasterState) : StepRes :=
  if m = st.manhole then (.ok (), st, [])
  else
    let evs := (if st.manhole.isSome then [Ev.manholeDetached] else [])
      ++ (if m.isSome then [Ev.manholeAttached] else [])
    (.ok (), { st with manhole := m }, evs)

/-- `BuildMaster.loadConfig_Builders` (lines 610-678): the three-way diff
against `botmaster.builders`. The diff decisions of removed / added /
updated builders are computed here at name granularity, with
`Builder.compareToSetup` (external) supplied by the environment; when
anything changed the new ordered list is handed to
`botmaster.setBuilders`, whose outcome the environment supplies. -/
def loadConfig_Builders (env : Env) (bs : List NormBuilder)
    (st : MasterState) : StepRes :=
  let oldNames := st.botmaster_builders.map Prod.fst
  let newNames := bs.map NormBuilder.name
  let removed := oldNames.filter (fun n => n ∉ newNames)
  let added := newNames.filter (fun n => n ∉ oldNames)
  let updated := newNames.filter (fun n => n ∈ oldNames && env.builderChanged n)
  let changed := !removed.isEmpty || !added.isEmpty || !updated.isEmpty
  if changed then
    match env.setBuildersResult with
    | some e => (.error e, st, [Ev.step .builders])
    | none =>
      (.ok (),
       { st with botmaster_builders := bs.map (fun b => (b.name, b)) },
       [Ev.step .builders])
  else (.ok (), st, [Ev.step .builders])

/-- `BuildMaster.loadConfig_status` (lines 680-699): targets no longer
declared are detached (and removed from the list immediately); after
those teardowns finish, newly declared targets are attached. -/
def loadConfig_status (env : Env) (targets : List Nat)
    (st : MasterState) : StepRes :=
  let kept := st.statusTargets.filter (fun s => s ∈ targets)
  match env.statusResult with
  | some e =>
    (.error e, { st with statusTargets := kept }, [Ev.step .statusTargets])
  | none =>
    (.ok (),
     { st with statusTargets :=
        kept ++ targets.filter (fun s => s ∉ st.statusTargets) },
     [Ev.step .statusTargets])

/-- `BuildMaster.loadConfig_Schedulers` (lines 709-710): delegates to
`SchedulerManager.updateSchedulers`, an external collaborator. -/
def loadConfig_Schedulers (env : Env) (scheds : List SchedSpec)
    (st : MasterState) : StepRes :=
  match env.schedulersResult with
  | some e => (.error e, st, [Ev.step .schedulers])
  | none =>
    (.ok (), { st with schedulerNames := scheds.map SchedSpec.name },
     [Ev.step .schedulers])

/-- `BuildMaster.loadConfig_Sources` (lines 576-589): removed change
sources are torn down first; after those deferreds fire, added sources
are attached. -/
def loadConfig_Sources (env : Env) (sources : List Nat)
    (st : MasterState) : StepRes :=
  let kept := st.change_svc_sources.filter (fun s => s ∈ sources)
  match env.sourcesResult with
  | some e =>
    (.error e, { st with change_svc_sources := kept },
     [Ev.step .changeSources])
  | none =>
    (.ok (),
     { st with change_svc_sources :=
        kept ++ sources.filter (fun s => s ∉ st.change_svc_sources) },
     [Ev.step .changeSources])

/-- `BuildMaster.loadConfig_DebugClient` (lines 591-605): the old
registration is unregistered, then a new one is made when the password is
truthy (a non-empty string). -/
def loadConfig_DebugClient (pw : Option String) (st : MasterState) : StepRes :=
  let old := st.debugClientRegistration.isSome
  let evs := (if old then [Ev.unregisterDebugClient] else [])
  match pw with
  | some p =>
    if !p.isEmpty then
      (.ok (), { st with debugClientRegistration := some p },
       Ev.step .debugClient :: evs ++ [Ev.registerDebugClient])
    else
      (.ok (), { st with debugClientRegistration := none },
       Ev.step .debugClient :: evs)
  | none =>
    (.ok (), { st with debugClientRegistration := none },
     Ev.step .debugClient :: evs)

/-- Sequential composition of the deferred chain built at lines 466-501:
each callback starts only after the previous deferred resolved, and a
failure short-circuits the rest. -/
def runSteps (st : MasterState) :
    List (MasterState → StepRes) → StepRes
  | [] => (.ok (), st, [])
  | f :: fs =>
    match f st with
    | (.error e, st1, evs) => (.error e, st1, evs)
    | (.ok (), st1, evs) =>
      let r := runSteps st1 fs
      (r.1, r.2.1, evs ++ r.2.2)

/-- The ordered steps the chain comprises, as built at lines 466-501. -/
def applySteps (env : Env) (v : ValidatedConfig) :
    List (MasterState → StepRes) :=
  [loadConfig_Database env v.db_url v.db_poll_interval,
   loadConfig_Slaves env,
   applyManhole v.manhole,
   loadConfig_Builders env v.builders,
   loadConfig_status env v.status,
   loadConfig_Schedulers env v.schedulers,
   loadConfig_Sources env v.change_sources,
   loadConfig_DebugClient v.debugPassword]

/-- The apply phase: the step chain followed by `_done` (which sets
`readConfig`) and the single `botmaster.loop.trigger()` call, both of
which run only when every step succeeded (lines 503-512). -/
def loadConfigApply (st : MasterState) (env : Env) (v : ValidatedConfig) :
    StepRes :=
  match runSteps st (applySteps env v) with
  | (.error e, st1, evs) => (.error e, st1, evs)
  | (.ok (), st1, evs) =>
    (.ok (), { st1 with readConfig := true },
     evs ++ [Ev.setReadConfig, Ev.triggerLoop])

/-- `BuildMaster.loadConfig`: validation, then - unless `checkOnly` - the
apply phase. The first component is the outcome of the callback chain;
in the non-checkOnly case the source appends `d.addErrback(log.err)`, so
a failure is logged and consumed rather than surfaced on the returned
deferred. -/
def loadConfig (st : MasterState) (env : Env) (cfg : RawConfig)
    (checkOnly : Bool) : StepRes :=
  match loadConfigValidate st cfg with
  | (.error e, st1) => (.error e, st1, [])
  | (.ok v, st1) =>
    if checkOnly then (.ok (), st1, [])
    else loadConfigApply st1 env v

/-! ## Change ingestion and the Control facade -/

/-- `BuildMaster.addChange` (lines 714-729): the change is written to the
database first (`db.changes.addChange`, external; its outcome is the
`dbRes` input). On success the `notify` callback delivers the change on
the changes bus only when `self.db_poll_interval` is falsy, and the
deferred resolves to the change; on failure the callback is skipped and
the failure propagates. With no connector attached, `self.db` is None and
the attribute access raises. -/
def BuildMaster.addChange (st : MasterState) (fields : ChangeFields)
    (dbRes : Except PyErr Change) : Except PyErr Change × List Ev :=
  match st.db with
  | none => (.error (.attributeError "NoneType object has no attribute changes"), [])
  | some _ =>
    match dbRes with
    | .error e => (.error e, [Ev.dbWrite fields])
    | .ok c =>
      if st.db_poll_interval.truthy then (.ok c, [Ev.dbWrite fields])
      else (.ok c, [Ev.dbWrite fields, Ev.deliverChange c])

/-- `BuildMaster.addBuildset` (lines 740-755): the buildset is written to
the database; on success `(bsid, kwargs)` is delivered on the new-buildset
bus and the deferred resolves to `bsid`. -/
def BuildMaster.addBuildset (st : MasterState) (fields : Nat)
    (dbRes : Except PyErr Nat) : Except PyErr Nat × List Ev :=
  match st.db with
  | none => (.error (.attributeError "NoneType object has no attribute buildsets"), [])
  | some _ =>
    match dbRes with
    | .error e => (.error e, [Ev.bsWrite fields])
    | .ok bsid => (.ok bsid, [Ev.bsWrite fields, Ev.deliverBuildset bsid])

/-- `BuildMaster.buildsetComplete` (lines 768-774): delivers on the
completion bus. -/
def BuildMaster.buildsetComplete (bsid : Nat) (result : Int) : List Ev :=
  [Ev.deliverBuildsetComplete bsid result]

/-- `Control.addChange` (lines 891-892). The body is
`self.master.addChange(change)`: it passes the change positionally to
`BuildMaster.addChange`, which accepts keyword arguments only, so the
call raises `TypeError` before the coordinator method runs; the body also
has no return statement, so even a successful call would evaluate to
None rather than the coordinator deferred. -/
def Control.addChange (_st : MasterState) (_change : ChangeFields) :
    Except PyErr Change × List Ev :=
  (.error (.typeError "addChange takes exactly 1 argument, 2 given"), [])

/-- `Control.addBuildset` (lines 894-895): returns the coordinator
deferred unchanged. -/
def Control.addBuildset (st : MasterState) (fields : Nat)
    (dbRes : Except PyErr Nat) : Except PyErr Nat × List Ev :=
  BuildMaster.addBuildset st fields dbRes

/-- What `Control.getBuilder` returns. -/
structure BuilderControl where
  builder : NormBuilder
deriving DecidableEq, Repr

/-- `Control.getBuilder` (lines 897-899): indexes
`master.botmaster.builders` (raising `KeyError` when the name is
unknown) and wraps the live builder in a `BuilderControl`. -/
def Control.getBuilder (st : MasterState) (name : String) :
    Except PyErr BuilderControl :=
  match st.botmaster_builders.find? (fun p => p.1 == name) with
  | some p => .ok { builder := p.2 }
  | none => .error (.keyError "no such builder")

/-! ## Trace observations -/

/-- The expected trace of the poll loop run from mark `k` over `n`
consecutive available changes, `f i` being the change stored at id `i`. -/
def loopTrace (f : Nat → Change) : Nat → Nat → List Ev
  | _, 0 => []
  | k, n + 1 =>
    Ev.deliverChange (f (k + 1)) :: Ev.setMarkMem (some (k + 1))
      :: loopTrace f (k + 1) n

/-- The change stored in the table at id `i` (unspecified filler when
absent). -/
def dbAt (db : List Change) (i : Nat) : Change :=
  (getChangeInstance db i).getD { changeid := 0, who := "" }

/-- Every in-memory mark advance in the trace is preceded by the delivery,
on the changes bus, of a change carrying exactly that id. -/
def markAdvanceSafe (tr : List Ev) : Prop :=
  ∀ l1 v l2, tr = l1 ++ Ev.setMarkMem (some v) :: l2 →
    ∃ c, Ev.deliverChange c ∈ l1 ∧ c.changeid = v

/-- Every durable `setState` of a mark value `v` in the trace is preceded
by deliveries of changes with every id in `(m, v]`, `m` being the mark the
invocation started from. -/
def persistAfterDelivery (m : Nat) (tr : List Ev) : Prop :=
  ∀ l1 v l2, tr = l1 ++ Ev.setState v :: l2 →
    m ≤ v ∧ ∀ i, m < i → i ≤ v →
      ∃ c, Ev.deliverChange c ∈ l1 ∧ c.changeid = i

/-- The step markers of a trace, in order. -/
def markersOf (evs : List Ev) : List StepName :=
  evs.filterMap (fun e =>
    match e with
    | Ev.step s => some s
    | _ => none)

/-- The marker lists the eight chained callbacks contribute, in chain
order (the manhole handling is inline code, not a named step). -/
def applyStepMarkers : List (List StepName) :=
  [[StepName.database], [StepName.slaves], [], [StepName.builders],
   [StepName.statusTargets], [StepName.schedulers],
   [StepName.changeSources], [StepName.debugClient]]

/-- What the chain lemma needs of one step: it emits exactly the given
markers, never emits `setReadConfig` or `triggerLoop`, and preserves
`readConfig`. -/
def stepSpec (ms : List StepName) (f : MasterState → StepRes) : Prop :=
  ∀ st, markersOf (f st).2.2 = ms ∧ Ev.setReadConfig ∉ (f st).2.2 ∧
    Ev.triggerLoop ∉ (f st).2.2 ∧ (f st).2.1.readConfig = st.readConfig

/-! ## Concrete sample data -/

def chg8 : Change := { changeid := 8, who := "alice" }

def chg9 : Change := { changeid := 9, who := "bob" }

/-- The changes table of scenario S5: ids 8 and 9 present beyond mark 7. -/
def dbS5 : List Change := [chg8, chg9]

def fS5 : Nat → Change := fun i => if i = 8 then chg8 else chg9

/-- A master state after a successful first load (connector attached). -/
def stLive : MasterState :=
  { db := some { changeHorizon := none }
    db_url := some "sqlite:///state.sqlite"
    db_poll_interval := .set .pyNone
    change_svc_changeHorizon := none
    change_svc_sources := []
    statusTargets := []
    botmaster_builders := []
    schedulerNames := []
    manhole := none
    debugClientRegistration := none
    readConfig := true }

/-- A freshly constructed master (no config loaded yet). -/
def stFresh : MasterState :=
  { db := none
    db_url := none
    db_poll_interval := .unset
    change_svc_changeHorizon := none
    change_svc_sources := []
    statusTargets := []
    botmaster_builders := []
    schedulerNames := []
    manhole := none
    debugClientRegistration := none
    readConfig := false }

/-- An environment in which every external collaborator succeeds. -/
def envOk : Env :=
  { dbSchemaCurrent := true
    slavesResult := none
    builderChanged := fun _ => false
    setBuildersResult := none
    statusResult := none
    schedulersResult := none
    sourcesResult := none }

/-- A baseline well-formed `BuildmasterConfig`. -/
def cfgBase : RawConfig :=
  { schedulers := some []
    builders := some []
    slavePortnum := some (.intPort 9989)
    slaves := some [{ slavename := "s1" }]
    change_source := []
    status := []
    db_url := none
    db_poll_interval := .pyNone
    logCompressionLimit := .pyInt 4096
    logCompressionMethod := "bz2"
    logMaxSize := .pyNone
    logMaxTailSize := .pyNone
    mergeRequests := .pyNone
    prioritizeBuilders := .pyNone
    changeHorizon := .pyNone
    multiMaster := false
    hasSources := false
    hasBots := false
    hasInterlocks := false
    propertiesIsDict := true
    debugPassword := none
    manhole := none }

/-- The C2 failing input: a reconfig that sets `changeHorizon` and also
uses the reserved slave name `debug`. -/
def cfgHorizonReserved : RawConfig :=
  { cfgBase with
    changeHorizon := .pyInt 5
    slaves := some [{ slavename := "debug" }] }

/-- A config whose slaves list repeats a name. -/
def cfgDupSlaves : RawConfig :=
  { cfgBase with
    slaves := some [{ slavename := "s1" }, { slavename := "s1" }] }

/-- A lock object named L (identity 1). -/
def lockL : Lock := { ident := 1, name := "L" }

/-- The builder b1 of scenario S1: targets s1, uses lock L directly and via a
`LockAccess` in its factory step. -/
def bspec1 : BuilderSpec :=
  { name := "b1"
    builddir := none
    slavebuilddir := none
    slavename := some "s1"
    slavenames := []
    locks := [.lockObj lockL]
    factoryStepLocks := [[.lockAccess lockL]]
    category := none }

/-- `bspec1` after defaulting. -/
def nb1 : NormBuilder :=
  { name := "b1"
    builddir := "b1"
    slavebuilddir := "b1"
    slavename := some "s1"
    slavenames := []
    locks := [.lockObj lockL]
    factoryStepLocks := [[.lockAccess lockL]]
    category := none }

/-- The configuration of scenario S1. -/
def cfgGood : RawConfig :=
  { cfgBase with
    builders := some [.cfgObj bspec1]
    schedulers := some [{ name := "all", builderNames := ["b1"] }] }

/-- The validated form of `cfgGood`. -/
def vGood : ValidatedConfig :=
  { db_url := "sqlite:///state.sqlite"
    db_poll_interval := .pyNone
    slaves := [{ slavename := "s1" }]
    builders := [nb1]
    schedulers := [{ name := "all", builderNames := ["b1"] }]
    change_sources := []
    status := []
    slavePortnum := "tcp:9989"
    debugPassword := none
    manhole := none }

/-- A reconfig attempting to change the database URL. -/
def cfgOtherDb : RawConfig := { cfgBase with db_url := some "sqlite:///other.sqlite" }

/-- A live state whose `db_poll_interval` was configured as the integer 0. -/
def stPoll0 : MasterState := { stLive with db_poll_interval := .set (.pyInt 0) }

def fieldsC : ChangeFields := { who := "u", comments := "c" }

def chgC : Change := { changeid := 1, who := "u" }

/-- A live state owning builder b1. -/
def stB : MasterState := { stLive with botmaster_builders := [("b1", nb1)] }

/-! ## Generic helpers for the sequencing combinators -/

theorem andThenE_ok {α β : Type} {x : Except PyErr α} {f : α → Except PyErr β}
    {b : β} (h : andThenE x f = .ok b) : ∃ a, x = .ok a ∧ f a = .ok b := by
  cases x with
  | error e => simp [andThenE] at h
  | ok a =>
    refine ⟨a, rfl, ?_⟩
    simpa [andThenE] using h

theorem andThenE_error {α β : Type} {x : Except PyErr α}
    {f : α → Except PyErr β} {e : PyErr} (h : andThenE x f = .error e) :
    x = .error e ∨ ∃ a, x = .ok a ∧ f a = .error e := by
  cases x with
  | error e2 =>
    left
    simpa [andThenE] using h
  | ok a =>
    right
    refine ⟨a, rfl, ?_⟩
    simpa [andThenE] using h

theorem guardP_ok {c : Prop} [Decidable c] {err : PyErr} {u : Unit}
    (h : guardP c err = .ok u) : ¬c := by
  intro hc
  rw [guardP, if_pos hc] at h
  cases h

theorem guardP_error {c : Prop} [Decidable c] {err e : PyErr}
    (h : guardP c err = .error e) : e = err ∧ c := by
  by_cases hc : c
  · rw [guardP, if_pos hc] at h
    injection h with h1
    exact ⟨h1.symm, hc⟩
  · rw [guardP, if_neg hc] at h
    cases h

/-! ## Lemmas about the poller -/

theorem changeid_le_maxChangeid {db : List Change} {c : Change}
    (h : c ∈ db) : c.changeid ≤ maxChangeid db := by
  induction db with
  | nil => cases h
  | cons a l ih =>
    rcases List.mem_cons.mp h with hh | hh
    · subst hh
      simp only [maxChangeid, List.foldr]
      omega
    · have := ih hh
      simp only [maxChangeid, List.foldr] at *
      omega

theorem getChangeInstance_changeid {db : List Change} {i : Nat} {c : Change}
    (h : getChangeInstance db i = some c) : c.changeid = i := by
  have h2 : db.find? (fun c => c.changeid == i) = some c := by
    simpa [getChangeInstance] using h
  have := List.find?_some h2
  simpa using this

theorem getChangeInstance_mem {db : List Change} {i : Nat} {c : Change}
    (h : getChangeInstance db i = some c) : c ∈ db :=
  List.mem_of_find?_eq_some (by simpa [getChangeInstance] using h)

theorem pollLoop_none {db : List Change} {mark : Nat}
    (h : getChangeInstance db (mark + 1) = none) :
    pollLoop db mark = ([], mark, false) := by
  unfold pollLoop
  split
  · rfl
  · rename_i c heq
    rw [h] at heq
    cases heq

theorem pollLoop_some {db : List Change} {mark : Nat} {c : Change}
    (h : getChangeInstance db (mark + 1) = some c) :
    pollLoop db mark =
      (Ev.deliverChange c :: Ev.setMarkMem (some (mark + 1))
         :: (pollLoop db (mark + 1)).1,
       (pollLoop db (mark + 1)).2.1, true) := by
  conv_lhs => unfold pollLoop
  split
  · rename_i heq
    rw [h] at heq
    cases heq
  · rename_i c2 heq
    rw [h] at heq
    injection heq with hc
    subst hc
    rfl

theorem pollLoop_run (db : List Change) (f : Nat → Change) :
    ∀ n k, (∀ i, k < i → i ≤ k + n → getChangeInstance db i = some (f i)) →
    getChangeInstance db (k + n + 1) = none →
    pollLoop db k = (loopTrace f k n, k + n, decide (0 < n)) := by
  intro n
  induction n with
  | zero =>
    intro k _ hend
    rw [pollLoop_none (by simpa using hend)]
    simp [loopTrace]
  | succ n ih =>
    intro k hex hend
    have h1 : getChangeInstance db (k + 1) = some (f (k + 1)) :=
      hex (k + 1) (by omega) (by omega)
    rw [pollLoop_some h1]
    have h2 := ih (k + 1)
      (fun i hi1 hi2 => hex i (by omega) (by omega))
      (by rw [show k + 1 + n + 1 = k + (n + 1) + 1 by omega]; exact hend)
    rw [h2, show k + (n + 1) = k + 1 + n by omega]
    simp [loopTrace]

theorem delivered_loopTrace (f : Nat → Change) :
    ∀ n k, delivered (loopTrace f k n) = (List.range' (k + 1) n).map f := by
  intro n
  induction n with
  | zero => intro k; simp [loopTrace, delivered, List.range']
  | succ n ih =>
    intro k
    simp only [loopTrace, delivered, List.filterMap_cons, List.range',
      List.map_cons]
    rw [← delivered, ih (k + 1)]

theorem setState_not_in_loopTrace (f : Nat → Change) (v : Nat) :
    ∀ n k, Ev.setState v ∉ loopTrace f k n := by
  intro n
  induction n with
  | zero => intro k; simp [loopTrace]
  | succ n ih =>
    intro k
    simp only [loopTrace, List.mem_cons]
    push_neg
    exact ⟨by simp, by simp, ih (k + 1)⟩

theorem deliver_in_loopTrace (f : Nat → Change) :
    ∀ n k i, k < i → i ≤ k + n →
      Ev.deliverChange (f i) ∈ loopTrace f k n := by
  intro n
  induction n with
  | zero => intro k i h1 h2; omega
  | succ n ih =>
    intro k i h1 h2
    simp only [loopTrace, List.mem_cons]
    by_cases hi : i = k + 1
    · subst hi
      exact Or.inl rfl
    · exact Or.inr (Or.inr (ih (k + 1) i (by omega) (by omega)))

theorem loopTrace_mark_split (f : Nat → Change) :
    ∀ n k l1 v l2,
      loopTrace f k n = l1 ++ Ev.setMarkMem (some v) :: l2 →
      Ev.deliverChange (f v) ∈ l1 ∧ k < v ∧ v ≤ k + n := by
  intro n
  induction n with
  | zero =>
    intro k l1 v l2 h
    have hlen := congrArg List.length h
    simp only [loopTrace, List.length_nil, List.length_append,
      List.length_cons] at hlen
    omega
  | succ n ih =>
    intro k l1 v l2 h
    simp only [loopTrace] at h
    match l1, h with
    | [], h =>
      simp only [List.nil_append, List.cons.injEq] at h
      exact absurd h.1 (by simp)
    | [a], h =>
      simp only [List.cons_append, List.nil_append, List.cons.injEq] at h
      obtain ⟨ha, hsm, _⟩ := h
      have hv : k + 1 = v := Option.some.inj (Ev.setMarkMem.inj hsm)
      subst ha
      subst hv
      exact ⟨List.mem_singleton.mpr rfl, by omega, by omega⟩
    | a :: b :: l1', h =>
      simp only [List.cons_append, List.cons.injEq] at h
      obtain ⟨ha, hb, hrest⟩ := h
      obtain ⟨hmem, hlo, hhi⟩ := ih (k + 1) l1' v l2 hrest
      refine ⟨?_, by omega, by omega⟩
      simp only [List.mem_cons]
      exact Or.inr (Or.inr hmem)

theorem split_in_left_of_append {α : Type} {A B l1 l2 : List α} {x : α}
    (h : A ++ B = l1 ++ x :: l2) (hx : x ∉ B) :
    ∃ l2a, A = l1 ++ x :: l2a ∧ l2 = l2a ++ B := by
  rw [List.append_eq_append_iff] at h
  rcases h with ⟨a2, h1, h2⟩ | ⟨c2, h1, h2⟩
  · have hmem : x ∈ a2 ++ x :: l2 :=
      List.mem_append_right a2 (List.mem_cons_self x l2)
    rw [← h2] at hmem
    exact absurd hmem hx
  · match c2, h2 with
    | [], h2 =>
      exact absurd (h2 ▸ List.mem_cons_self x l2) (by simpa using hx)
    | d :: c2', h2 =>
      simp only [List.cons_append, List.cons.injEq] at h2
      exact ⟨c2', by rw [h1, h2.1], h2.2⟩

theorem mem_or_last_of_append_singleton {α : Type} {A l1 l2 : List α} {x y : α}
    (h : A ++ [y] = l1 ++ x :: l2) :
    x ∈ A ∨ (l1 = A ∧ x = y ∧ l2 = []) := by
  rw [List.append_eq_append_iff] at h
  rcases h with ⟨a2, h1, h2⟩ | ⟨c2, h1, h2⟩
  · match a2, h2 with
    | [], h2 =>
      simp only [List.nil_append, List.cons.injEq] at h2
      exact Or.inr ⟨by simp [h1], h2.1.symm, h2.2.symm⟩
    | c :: a2', h2 =>
      simp only [List.cons_append, List.cons.injEq] at h2
      exact absurd h2.2.symm (by cases a2' <;> simp)
  · match c2, h2 with
    | [], h2 =>
      simp only [List.nil_append, List.cons.injEq] at h2
      exact Or.inr ⟨by simp [h1], h2.1, h2.2⟩
    | d :: c2', h2 =>
      simp only [List.cons_append, List.cons.injEq] at h2
      refine Or.inl ?_
      rw [h1, h2.1]
      exact List.mem_append_right l1 (List.mem_cons_self _ _)

theorem pollLoop_spec (db : List Change) :
    ∀ fuel k, maxChangeid db - k ≤ fuel →
    ∃ n, (∀ i, k < i → i ≤ k + n →
            getChangeInstance db i = some (dbAt db i)) ∧
      getChangeInstance db (k + n + 1) = none ∧
      pollLoop db k = (loopTrace (dbAt db) k n, k + n, decide (0 < n)) := by
  intro fuel
  induction fuel with
  | zero =>
    intro k hk
    have hnone : getChangeInstance db (k + 1) = none := by
      cases h : getChangeInstance db (k + 1) with
      | none => rfl
      | some c =>
        have hc := getChangeInstance_changeid h
        have := changeid_le_maxChangeid (getChangeInstance_mem h)
        omega
    exact ⟨0, fun i h1 h2 => by omega, by simpa using hnone,
      by rw [pollLoop_none hnone]; simp [loopTrace]⟩
  | succ fuel ih =>
    intro k hk
    cases h : getChangeInstance db (k + 1) with
    | none =>
      exact ⟨0, fun i h1 h2 => by omega, by simpa using h,
        by rw [pollLoop_none h]; simp [loopTrace]⟩
    | some c =>
      have hc : c.changeid = k + 1 := getChangeInstance_changeid h
      have hmax := changeid_le_maxChangeid (getChangeInstance_mem h)
      obtain ⟨n, hex, hend, hrun⟩ := ih (k + 1) (by omega)
      refine ⟨n + 1, ?_, ?_, ?_⟩
      · intro i h1 h2
        by_cases hi : i = k + 1
        · subst hi
          simp [dbAt, h]
        · exact hex i (by omega) (by omega)
      · rw [show k + (n + 1) + 1 = k + 1 + n + 1 by omega]
        exact hend
      · have hcd : c = dbAt db (k + 1) := by simp [dbAt, h]
        rw [pollLoop_some h, hrun, hcd,
          show k + (n + 1) = k + 1 + n by omega]
        simp [loopTrace]

/-! ## Claims C1 and C3 -/

/-- C1: with the in-memory mark holding `m` and the changes table holding
changes at the consecutive ids `m+1 .. M` and none at `M+1`, one
invocation of `pollDatabaseChanges` delivers exactly the changes
`m+1 .. M` on the changes bus, each once and in strictly increasing
changeid order, leaves the in-memory mark at `M`, and persists the mark
through `setState` exactly when `M > m`. -/
theorem c1_poll_delivers_consecutive
    (db : List Change) (stored : Option Nat) (m M : Nat) (f : Nat → Change)
    (hmM : m ≤ M)
    (hex : ∀ i, m < i → i ≤ M → getChangeInstance db i = some (f i))
    (hend : getChangeInstance db (M + 1) = none) :
    delivered (pollDatabaseChanges db (some m) stored).1
        = (List.range' (m + 1) (M - m)).map f
    ∧ (delivered (pollDatabaseChanges db (some m) stored).1).map Change.changeid
        = List.range' (m + 1) (M - m)
    ∧ (pollDatabaseChanges db (some m) stored).2.1 = some M
    ∧ (Ev.setState M ∈ (pollDatabaseChanges db (some m) stored).1 ↔ m < M)
    ∧ (pollDatabaseChanges db (some m) stored).2.2
        = (if m < M then some M else stored) := by
  have hrun := pollLoop_run db f (M - m) m
    (fun i h1 h2 => hex i h1 (by omega))
    (by rw [show m + (M - m) + 1 = M + 1 by omega]; exact hend)
  rw [show m + (M - m) = M by omega] at hrun
  have hmap : ∀ tr, tr = (List.range' (m + 1) (M - m)).map f →
      tr.map Change.changeid = List.range' (m + 1) (M - m) := by
    intro tr htr
    rw [htr, List.map_map]
    have hcong : ∀ i ∈ List.range' (m + 1) (M - m),
        (Change.changeid ∘ f) i = id i := by
      intro i hi
      rw [List.mem_range'_1] at hi
      exact getChangeInstance_changeid (hex i (by omega) (by omega))
    rw [List.map_congr_left hcong, List.map_id]
  by_cases hlt : m < M
  · have hdirty : (0 : Nat) < M - m := by omega
    have htr : (pollDatabaseChanges db (some m) stored).1
        = loopTrace f m (M - m) ++ [Ev.setState M] := by
      simp [pollDatabaseChanges, hrun, hdirty]
    have hm1 : (pollDatabaseChanges db (some m) stored).2.1 = some M := by
      simp [pollDatabaseChanges, hrun, hdirty]
    have hm2 : (pollDatabaseChanges db (some m) stored).2.2 = some M := by
      simp [pollDatabaseChanges, hrun, hdirty]
    have hdel : delivered (loopTrace f m (M - m) ++ [Ev.setState M])
        = (List.range' (m + 1) (M - m)).map f := by
      simp only [delivered, List.filterMap_append]
      rw [← delivered, delivered_loopTrace]
      simp [delivered]
    rw [htr, hm1, hm2, if_pos hlt]
    exact ⟨hdel, hmap _ hdel, rfl, by simp [hlt], rfl⟩
  · have hMm : M = m := by omega
    have hzero : M - m = 0 := by omega
    have htr : (pollDatabaseChanges db (some m) stored).1 = [] := by
      simp [pollDatabaseChanges, hrun, hzero, loopTrace]
    have hm1 : (pollDatabaseChanges db (some m) stored).2.1 = some M := by
      simp [pollDatabaseChanges, hrun, hzero, loopTrace]
    have hm2 : (pollDatabaseChanges db (some m) stored).2.2 = stored := by
      simp [pollDatabaseChanges, hrun, hzero, loopTrace]
    rw [htr, hm1, hm2, if_neg hlt, hzero]
    simp [delivered, List.range', hlt]

/-- C3: within the polling loop, every delivery precedes the advance of
the in-memory mark to the id of that change, and the durable `setState` of the
mark happens only after the changes at every id between the starting mark
and the persisted value have been delivered on the bus. Stated for any
invocation whose in-memory mark holds an integer `m`, over any contents
of the changes table. -/
theorem c3_publish_precedes_mark
    (db : List Change) (stored : Option Nat) (m : Nat) :
    markAdvanceSafe (pollDatabaseChanges db (some m) stored).1 ∧
    persistAfterDelivery m (pollDatabaseChanges db (some m) stored).1 := by
  obtain ⟨n, hex, hend, hrun⟩ :=
    pollLoop_spec db (maxChangeid db - m) m (le_refl _)
  cases n with
  | zero =>
    have htr : (pollDatabaseChanges db (some m) stored).1 = [] := by
      simp [pollDatabaseChanges, hrun, loopTrace]
    rw [htr]
    constructor
    · intro l1 v l2 h
      have hlen := congrArg List.length h
      simp only [List.length_nil, List.length_append, List.length_cons] at hlen
      omega
    · intro l1 v l2 h
      have hlen := congrArg List.length h
      simp only [List.length_nil, List.length_append, List.length_cons] at hlen
      omega
  | succ n' =>
    have htr : (pollDatabaseChanges db (some m) stored).1
        = loopTrace (dbAt db) m (n' + 1) ++ [Ev.setState (m + (n' + 1))] := by
      simp [pollDatabaseChanges, hrun]
    rw [htr]
    constructor
    · intro l1 v l2 h
      obtain ⟨l2a, hA, _⟩ := split_in_left_of_append h (by simp)
      obtain ⟨hmem, hlo, hhi⟩ :=
        loopTrace_mark_split (dbAt db) (n' + 1) m l1 v l2a hA
      exact ⟨dbAt db v, hmem,
        getChangeInstance_changeid (hex v hlo hhi)⟩
    · intro l1 v l2 h
      rcases mem_or_last_of_append_singleton h with hin | ⟨hl1, hxy, _⟩
      · exact absurd hin (setState_not_in_loopTrace (dbAt db) v (n' + 1) m)
      · have hv : v = m + (n' + 1) := by
          injection hxy with h1
        subst hv
        subst hl1
        refine ⟨by omega, ?_⟩
        intro i h1 h2
        exact ⟨dbAt db i, deliver_in_loopTrace (dbAt db) (n' + 1) m i h1 h2,
          getChangeInstance_changeid (hex i h1 h2)⟩

/-- Witness for C1: scenario S5 (mark 7, changes 8 and 9 in the table). -/
theorem c1_poll_delivers_consecutive_witness :
    delivered (pollDatabaseChanges dbS5 (some 7) (some 7)).1
        = (List.range' (7 + 1) (9 - 7)).map fS5
    ∧ (delivered (pollDatabaseChanges dbS5 (some 7) (some 7)).1).map Change.changeid
        = List.range' (7 + 1) (9 - 7)
    ∧ (pollDatabaseChanges dbS5 (some 7) (some 7)).2.1 = some 9
    ∧ (Ev.setState 9 ∈ (pollDatabaseChanges dbS5 (some 7) (some 7)).1 ↔ 7 < 9)
    ∧ (pollDatabaseChanges dbS5 (some 7) (some 7)).2.2
        = (if 7 < 9 then some 9 else some 7) :=
  c1_poll_delivers_consecutive dbS5 (some 7) 7 9 fS5 (by omega)
    (by
      intro i h1 h2
      have hi : i = 8 ∨ i = 9 := by omega
      rcases hi with hi | hi <;> subst hi <;> rfl)
    (by rfl)

/-! ## Lemmas about the validation phase -/

theorem validatePre_error_schema {cfg : RawConfig} {e : PyErr}
    (h : validatePre cfg = .error e) : e.isSchemaError = true := by
  simp only [validatePre] at h
  rcases andThenE_error h with hh | ⟨u1, _, h⟩
  · obtain ⟨he, _⟩ := guardP_error hh
    subst he
    rfl
  rcases andThenE_error h with hh | ⟨u2, _, h⟩
  · obtain ⟨he, _⟩ := guardP_error hh
    subst he
    rfl
  rcases andThenE_error h with hh | ⟨u3, _, h⟩
  · obtain ⟨he, _⟩ := guardP_error hh
    subst he
    rfl
  rcases andThenE_error h with hh | ⟨u4, _, h⟩
  · obtain ⟨he, _⟩ := guardP_error hh
    subst he
    rfl
  rcases andThenE_error h with hh | ⟨u5, _, h⟩
  · obtain ⟨he, _⟩ := guardP_error hh
    subst he
    rfl
  rcases andThenE_error h with hh | ⟨u6, _, h⟩
  · obtain ⟨he, _⟩ := guardP_error hh
    subst he
    rfl
  rcases andThenE_error h with hh | ⟨u7, _, h⟩
  · obtain ⟨he, _⟩ := guardP_error hh
    subst he
    rfl
  rcases andThenE_error h with hh | ⟨u8, _, h⟩
  · obtain ⟨he, _⟩ := guardP_error hh
    subst he
    rfl
  rcases andThenE_error h with hh | ⟨u9, _, h⟩
  · obtain ⟨he, _⟩ := guardP_error hh
    subst he
    rfl
  rcases andThenE_error h with hh | ⟨u10, _, h⟩
  · obtain ⟨he, _⟩ := guardP_error hh
    subst he
    rfl
  rcases andThenE_error h with hh | ⟨u11, _, h⟩
  · obtain ⟨he, _⟩ := guardP_error hh
    subst he
    rfl
  rcases andThenE_error h with hh | ⟨u12, _, h⟩
  · obtain ⟨he, _⟩ := guardP_error hh
    subst he
    rfl
  obtain ⟨he, _⟩ := guardP_error h
  subst he
  rfl

theorem checkSlavesReserved_ok {sl : List SlaveSpec}
    (h : checkSlavesReserved sl = .ok ()) :
    ∀ s ∈ sl, ¬(s.slavename = "debug" ∨ s.slavename = "change"
      ∨ s.slavename = "status") := by
  induction sl with
  | nil => intro s hs; cases hs
  | cons a l ih =>
    intro s hs
    simp only [checkSlavesReserved] at h
    split at h
    · cases h
    · rename_i hres
      rcases List.mem_cons.mp hs with hh | hh
      · subst hh
        exact hres
      · exact ih h s hh

theorem checkSlavesReserved_error {sl : List SlaveSpec} {e : PyErr}
    (h : checkSlavesReserved sl = .error e) : e.isSchemaError = true := by
  induction sl with
  | nil => cases h
  | cons a l ih =>
    simp only [checkSlavesReserved] at h
    split at h
    · injection h with h1
      subst h1
      rfl
    · exact ih h

theorem checkSlavesUnique_ok {sl : List SlaveSpec}
    (h : checkSlavesUnique sl = .ok ()) :
    (sl.map SlaveSpec.slavename).Nodup := by
  simp only [checkSlavesUnique] at h
  split at h
  · assumption
  · cases h

theorem checkSlavesUnique_error {sl : List SlaveSpec} {e : PyErr}
    (h : checkSlavesUnique sl = .error e) : e.isSchemaError = true := by
  simp only [checkSlavesUnique] at h
  split at h
  · cases h
  · injection h with h1
    subst h1
    rfl

theorem checkDbSettings_ok {st : MasterState} {dburl : String} {pollv : PyVal}
    (h : checkDbSettings st dburl pollv = .ok ()) :
    (∀ u, st.db_url = some u → dburl = u)
    ∧ noneOrInt pollv = true
    ∧ (∀ w, st.db_poll_interval = .set w → pollv = w) := by
  simp only [checkDbSettings] at h
  obtain ⟨u1, h1, h⟩ := andThenE_ok h
  obtain ⟨u2, h2, h⟩ := andThenE_ok h
  refine ⟨?_, ?_, ?_⟩
  · intro u hu
    rw [hu] at h1
    have := guardP_ok h1
    exact not_not.mp this
  · have := guardP_ok h2
    simpa using this
  · intro w hw
    rw [hw] at h
    have := guardP_ok h
    exact not_not.mp this

theorem checkDbSettings_error {st : MasterState} {dburl : String}
    {pollv : PyVal} {e : PyErr}
    (h : checkDbSettings st dburl pollv = .error e) : e.isSchemaError = true := by
  simp only [checkDbSettings] at h
  rcases andThenE_error h with hh | ⟨u1, _, h⟩
  · cases hst : st.db_url with
    | some u =>
      rw [hst] at hh
      obtain ⟨he, _⟩ := guardP_error hh
      subst he
      rfl
    | none =>
      rw [hst] at hh
      cases hh
  · rcases andThenE_error h with hh | ⟨u2, _, h⟩
    · obtain ⟨he, _⟩ := guardP_error hh
      subst he
      rfl
    · cases hst : st.db_poll_interval with
      | set w =>
        rw [hst] at h
        obtain ⟨he, _⟩ := guardP_error h
        subst he
        rfl
      | unset =>
        rw [hst] at h
        cases h

theorem convertBuilders_error {bs : List BuilderEntry} {e : PyErr}
    (h : convertBuilders bs = .error e) : e.isSchemaError = true := by
  induction bs with
  | nil => cases h
  | cons b rest ih =>
    cases b with
    | cfgObj s =>
      simp only [convertBuilders] at h
      rcases andThenE_error h with hh | ⟨a, _, hh⟩
      · exact ih hh
      · cases hh
    | dictObj s =>
      simp only [convertBuilders] at h
      rcases andThenE_error h with hh | ⟨a, _, hh⟩
      · exact ih hh
      · cases hh
    | badObj =>
      simp only [convertBuilders] at h
      injection h with h1
      subst h1
      rfl

theorem checkBuildersGo_error {slavenames : List String} :
    ∀ bs names dirs e,
      checkBuildersGo slavenames names dirs bs = .error e →
      e.isSchemaError = true := by
  intro bs
  induction bs with
  | nil => intro names dirs e h; cases h
  | cons b rest ih =>
    intro names dirs e h
    simp only [checkBuildersGo] at h
    rcases andThenE_error h with hh | ⟨u1, _, h⟩
    · cases hsn : b.slavename with
      | some sn =>
        rw [hsn] at hh
        obtain ⟨he, _⟩ := guardP_error hh
        subst he
        rfl
      | none =>
        rw [hsn] at hh
        cases hh
    · rcases andThenE_error h with hh | ⟨u2, _, h⟩
      · obtain ⟨he, _⟩ := guardP_error hh
        subst he
        rfl
      · rcases andThenE_error h with hh | ⟨u3, _, h⟩
        · obtain ⟨he, _⟩ := guardP_error hh
          subst he
          rfl
        · rcases andThenE_error h with hh | ⟨u4, _, h⟩
          · obtain ⟨he, _⟩ := guardP_error hh
            subst he
            rfl
          · rcases andThenE_error h with hh | ⟨u5, _, h⟩
            · obtain ⟨he, _⟩ := guardP_error hh
              subst he
              rfl
            · rcases andThenE_error h with hh | ⟨r, _, h⟩
              · exact ih _ _ _ hh
              · cases h

theorem checkSchedulersGo_error {multiMaster : Bool} {buildernames : List String} :
    ∀ ss seen e,
      checkSchedulersGo multiMaster buildernames seen ss = .error e →
      e.isSchemaError = true := by
  intro ss
  induction ss with
  | nil => intro seen e h; cases h
  | cons s rest ih =>
    intro seen e h
    simp only [checkSchedulersGo] at h
    rcases andThenE_error h with hh | ⟨u1, _, h⟩
    · obtain ⟨he, _⟩ := guardP_error hh
      subst he
      rfl
    · rcases andThenE_error h with hh | ⟨u2, _, h⟩
      · obtain ⟨he, _⟩ := guardP_error hh
        subst he
        rfl
      · exact ih _ _ h

theorem addLocks_error {e : PyErr} :
    ∀ refs dict, addLocks dict refs = .error e → e.isSchemaError = true := by
  intro refs
  induction refs with
  | nil => intro dict h; cases h
  | cons r rest ih =>
    intro dict h
    simp only [addLocks] at h
    split at h
    · split at h
      · injection h with h1
        subst h1
        rfl
      · exact ih _ h
    · exact ih _ h

theorem checkLocksGo_error {e : PyErr} :
    ∀ bs dict, checkLocksGo dict bs = .error e → e.isSchemaError = true := by
  intro bs
  induction bs with
  | nil => intro dict h; cases h
  | cons b rest ih =>
    intro dict h
    simp only [checkLocksGo] at h
    rcases andThenE_error h with hh | ⟨d2, _, h⟩
    · exact addLocks_error _ _ hh
    · exact ih _ h

theorem validateMain_error_schema {st : MasterState} {cfg : RawConfig} {e : PyErr}
    (h : validateMain st cfg = .error e) : e.isSchemaError = true := by
  simp only [validateMain] at h
  rcases andThenE_error h with hh | ⟨u1, _, h⟩
  · exact checkSlavesReserved_error hh
  rcases andThenE_error h with hh | ⟨u2, _, h⟩
  · exact checkSlavesUnique_error hh
  rcases andThenE_error h with hh | ⟨u3, _, h⟩
  · obtain ⟨he, _⟩ := guardP_error hh
    subst he
    rfl
  rcases andThenE_error h with hh | ⟨u4, _, h⟩
  · exact checkDbSettings_error hh
  rcases andThenE_error h with hh | ⟨bspecs, _, h⟩
  · exact convertBuilders_error hh
  rcases andThenE_error h with hh | ⟨nbs, _, h⟩
  · exact checkBuildersGo_error _ _ _ _ hh
  rcases andThenE_error h with hh | ⟨u7, _, h⟩
  · exact checkSchedulersGo_error _ _ _ hh
  rcases andThenE_error h with hh | ⟨d, _, h⟩
  · exact checkLocksGo_error _ _ hh
  rcases andThenE_error h with hh | ⟨u9, _, h⟩
  · obtain ⟨he, _⟩ := guardP_error hh
    subst he
    rfl
  cases h

theorem validateMain_ok_parts {st : MasterState} {cfg : RawConfig}
    {v : ValidatedConfig} (h : validateMain st cfg = .ok v) :
    checkSlavesReserved (cfg.slaves.getD []) = .ok ()
    ∧ checkSlavesUnique (cfg.slaves.getD []) = .ok ()
    ∧ checkDbSettings st (cfg.db_url.getD "sqlite:///state.sqlite")
        cfg.db_poll_interval = .ok ()
    ∧ (∃ bspecs, convertBuilders (cfg.builders.getD []) = .ok bspecs
        ∧ checkBuildersGo ((cfg.slaves.getD []).map SlaveSpec.slavename) [] []
            bspecs = .ok v.builders)
    ∧ (∃ d, checkLocksGo [] v.builders = .ok d)
    ∧ v.slaves = cfg.slaves.getD []
    ∧ v.db_url = cfg.db_url.getD "sqlite:///state.sqlite"
    ∧ v.db_poll_interval = cfg.db_poll_interval := by
  simp only [validateMain] at h
  obtain ⟨u1, h1, h⟩ := andThenE_ok h
  obtain ⟨u2, h2, h⟩ := andThenE_ok h
  obtain ⟨u3, h3, h⟩ := andThenE_ok h
  obtain ⟨u4, h4, h⟩ := andThenE_ok h
  obtain ⟨bspecs, h5, h⟩ := andThenE_ok h
  obtain ⟨nbs, h6, h⟩ := andThenE_ok h
  obtain ⟨u7, h7, h⟩ := andThenE_ok h
  obtain ⟨d, h8, h⟩ := andThenE_ok h
  obtain ⟨u9, h9, h⟩ := andThenE_ok h
  injection h with hv
  subst hv
  cases u1
  cases u2
  cases u4
  exact ⟨h1, h2, h4, ⟨bspecs, h5, h6⟩, ⟨d, h8⟩, rfl, rfl, rfl⟩

theorem applyChangeHorizon_fields (st : MasterState) (v : PyVal) :
    (applyChangeHorizon st v).2.db_url = st.db_url
    ∧ (applyChangeHorizon st v).2.db_poll_interval = st.db_poll_interval
    ∧ (applyChangeHorizon st v).2.change_svc_sources = st.change_svc_sources
    ∧ (applyChangeHorizon st v).2.statusTargets = st.statusTargets
    ∧ (applyChangeHorizon st v).2.botmaster_builders = st.botmaster_builders
    ∧ (applyChangeHorizon st v).2.schedulerNames = st.schedulerNames
    ∧ (applyChangeHorizon st v).2.manhole = st.manhole
    ∧ (applyChangeHorizon st v).2.debugClientRegistration
        = st.debugClientRegistration
    ∧ (applyChangeHorizon st v).2.readConfig = st.readConfig := by
  cases v <;> try (simp [applyChangeHorizon])
  cases st.db <;> simp [applyChangeHorizon]

theorem applyChangeHorizon_error {st : MasterState} {v : PyVal} {e : PyErr}
    {st1 : MasterState}
    (h : applyChangeHorizon st v = (.error e, st1)) :
    st.db = none ∧ (∃ n, v = .pyInt n) := by
  cases v with
  | pyInt n =>
    simp only [applyChangeHorizon] at h
    split at h
    · rename_i heq
      exact ⟨heq, n, rfl⟩
    · simp at h
  | pyNone =>
    simp only [applyChangeHorizon] at h
    simp at h
  | pyBool b =>
    simp only [applyChangeHorizon] at h
    simp at h
  | pyStr s =>
    simp only [applyChangeHorizon] at h
    simp at h
  | pyCallable i =>
    simp only [applyChangeHorizon] at h
    simp at h

theorem loadConfigValidate_fields (st : MasterState) (cfg : RawConfig) :
    (loadConfigValidate st cfg).2.db_url = st.db_url
    ∧ (loadConfigValidate st cfg).2.db_poll_interval = st.db_poll_interval
    ∧ (loadConfigValidate st cfg).2.change_svc_sources = st.change_svc_sources
    ∧ (loadConfigValidate st cfg).2.statusTargets = st.statusTargets
    ∧ (loadConfigValidate st cfg).2.botmaster_builders = st.botmaster_builders
    ∧ (loadConfigValidate st cfg).2.schedulerNames = st.schedulerNames
    ∧ (loadConfigValidate st cfg).2.manhole = st.manhole
    ∧ (loadConfigValidate st cfg).2.debugClientRegistration
        = st.debugClientRegistration
    ∧ (loadConfigValidate st cfg).2.readConfig = st.readConfig := by
  unfold loadConfigValidate
  cases validatePre cfg with
  | error e => simp
  | ok u =>
    cases u
    have hA := applyChangeHorizon_fields st cfg.changeHorizon
    rcases h1 : applyChangeHorizon st cfg.changeHorizon with ⟨r1, st1⟩
    rw [h1] at hA
    cases r1 with
    | error e => simpa using hA
    | ok u2 =>
      cases u2
      cases hM : validateMain st1 cfg with
      | error e => simpa [hM] using hA
      | ok v => simpa [hM] using hA

theorem loadConfigValidate_ok {st : MasterState} {cfg : RawConfig}
    {v : ValidatedConfig} {st1 : MasterState}
    (h : loadConfigValidate st cfg = (.ok v, st1)) :
    validatePre cfg = .ok ()
    ∧ applyChangeHorizon st cfg.changeHorizon = (.ok (), st1)
    ∧ validateMain st1 cfg = .ok v := by
  unfold loadConfigValidate at h
  split at h
  · simp at h
  · rename_i hP
    split at h
    · simp at h
    · rename_i stA hA
      split at h
      · simp at h
      · rename_i v2 hM
        simp only [Prod.mk.injEq] at h
        obtain ⟨hv, hst⟩ := h
        injection hv with hv
        subst hv
        subst hst
        exact ⟨hP, hA, hM⟩

theorem loadConfigValidate_error {st : MasterState} {cfg : RawConfig}
    {e : PyErr} {st1 : MasterState}
    (h : loadConfigValidate st cfg = (.error e, st1)) :
    e.isSchemaError = true ∨ (st.db = none ∧ ∃ n, cfg.changeHorizon = .pyInt n) := by
  unfold loadConfigValidate at h
  split at h
  · rename_i e2 hP
    simp only [Prod.mk.injEq] at h
    obtain ⟨he, _⟩ := h
    injection he with he
    subst he
    exact Or.inl (validatePre_error_schema hP)
  · rename_i hP
    split at h
    · rename_i e2 stA hA
      simp only [Prod.mk.injEq] at h
      obtain ⟨he, _⟩ := h
      injection he with he
      subst he
      exact Or.inr (applyChangeHorizon_error hA)
    · rename_i stA hA
      split at h
      · rename_i e2 hM
        simp only [Prod.mk.injEq] at h
        obtain ⟨he, _⟩ := h
        injection he with he
        subst he
        exact Or.inl (validateMain_error_schema hM)
      · simp at h

theorem loadConfig_of_validate_error {st st1 : MasterState} {env : Env}
    {cfg : RawConfig} {e : PyErr} {co : Bool}
    (h : loadConfigValidate st cfg = (.error e, st1)) :
    loadConfig st env cfg co = (.error e, st1, []) := by
  simp [loadConfig, h]

theorem loadConfig_of_validate_ok {st st1 : MasterState} {env : Env}
    {cfg : RawConfig} {v : ValidatedConfig}
    (h : loadConfigValidate st cfg = (.ok v, st1)) :
    loadConfig st env cfg false = loadConfigApply st1 env v := by
  simp [loadConfig, h]

theorem checkBuildersGo_spec {slavenames : List String} :
    ∀ bs names dirs nbs,
      checkBuildersGo slavenames names dirs bs = .ok nbs →
      (nbs.map NormBuilder.name).Nodup
      ∧ (∀ nb ∈ nbs, nb.name ∉ names)
      ∧ (nbs.map NormBuilder.builddir).Nodup
      ∧ (∀ nb ∈ nbs, nb.builddir ∉ dirs)
      ∧ (∀ nb ∈ nbs, ¬ startsWithUnderscore nb.name)
      ∧ (∀ nb ∈ nbs, (∀ sn, nb.slavename = some sn → sn ∈ slavenames)
          ∧ (∀ n ∈ nb.slavenames, n ∈ slavenames))
      ∧ List.Forall₂ (fun b nb => nb.name = b.name
          ∧ nb.builddir = b.builddir.getD (safeTranslate b.name)) bs nbs := by
  intro bs
  induction bs with
  | nil =>
    intro names dirs nbs h
    simp only [checkBuildersGo] at h
    injection h with h
    subst h
    simp
  | cons b rest ih =>
    intro names dirs nbs h
    simp only [checkBuildersGo] at h
    obtain ⟨u1, h1, h⟩ := andThenE_ok h
    obtain ⟨u2, h2, h⟩ := andThenE_ok h
    obtain ⟨u3, h3, h⟩ := andThenE_ok h
    obtain ⟨u4, h4, h⟩ := andThenE_ok h
    obtain ⟨u5, h5, h⟩ := andThenE_ok h
    obtain ⟨r, h6, h⟩ := andThenE_ok h
    injection h with h
    subst h
    have hsl1 : ∀ sn, b.slavename = some sn → sn ∈ slavenames := by
      intro sn hsn
      rw [hsn] at h1
      exact not_not.mp (guardP_ok h1)
    have hsl2 : ∀ n ∈ b.slavenames, n ∈ slavenames := by
      have := guardP_ok h2
      push_neg at this
      exact this
    have hname : b.name ∉ names := guardP_ok h3
    have hus : ¬ startsWithUnderscore b.name := by
      have := guardP_ok h4
      simpa using this
    have hdir : b.builddir.getD (safeTranslate b.name) ∉ dirs := guardP_ok h5
    obtain ⟨ihn, ihn2, ihd, ihd2, ihu, ihs, ihf⟩ :=
      ih (names ++ [b.name]) (dirs ++ [b.builddir.getD (safeTranslate b.name)])
        r h6
    refine ⟨?_, ?_, ?_, ?_, ?_, ?_, ?_⟩
    · simp only [List.map_cons, List.nodup_cons]
      refine ⟨?_, ihn⟩
      intro hmem
      rw [List.mem_map] at hmem
      obtain ⟨x, hx, hxe⟩ := hmem
      exact absurd (List.mem_append_right names (by simp [hxe]))
        (ihn2 x hx)
    · intro nb hnb
      rcases List.mem_cons.mp hnb with hh | hh
      · subst hh
        exact hname
      · intro hmem
        exact absurd (List.mem_append_left [b.name] hmem) (ihn2 nb hh)
    · simp only [List.map_cons, List.nodup_cons]
      refine ⟨?_, ihd⟩
      intro hmem
      rw [List.mem_map] at hmem
      obtain ⟨x, hx, hxe⟩ := hmem
      exact absurd
        (List.mem_append_right dirs (by simp [hxe]))
        (ihd2 x hx)
    · intro nb hnb
      rcases List.mem_cons.mp hnb with hh | hh
      · subst hh
        exact hdir
      · intro hmem
        exact absurd (List.mem_append_left _ hmem) (ihd2 nb hh)
    · intro nb hnb
      rcases List.mem_cons.mp hnb with hh | hh
      · subst hh
        exact hus
      · exact ihu nb hh
    · intro nb hnb
      rcases List.mem_cons.mp hnb with hh | hh
      · subst hh
        exact ⟨hsl1, hsl2⟩
      · exact ihs nb hh
    · exact List.Forall₂.cons ⟨rfl, rfl⟩ ihf

theorem addLocks_mono {d2 : List (String × Lock)} :
    ∀ refs dict, addLocks dict refs = .ok d2 →
    ∀ n l, lookupLock dict n = some l → lookupLock d2 n = some l := by
  intro refs
  induction refs with
  | nil =>
    intro dict h n l hl
    injection h with h
    subst h
    exact hl
  | cons r rest ih =>
    intro dict h n l hl
    simp only [addLocks] at h
    split at h
    · split at h
      · cases h
      · exact ih dict h n l hl
    · rename_i hnone
      refine ih _ h n l ?_
      simp only [lookupLock]
      split
      · rename_i heq
        rw [heq] at hnone
        rw [hnone] at hl
        cases hl
      · exact hl

theorem addLocks_sound {d2 : List (String × Lock)} :
    ∀ refs dict, addLocks dict refs = .ok d2 →
    ∀ r ∈ refs, lookupLock d2 (lockRefId r).name = some (lockRefId r) := by
  intro refs
  induction refs with
  | nil =>
    intro dict h r hr
    cases hr
  | cons r0 rest ih =>
    intro dict h r hr
    simp only [addLocks] at h
    split at h
    · rename_i l2 hsome
      split at h
      · cases h
      · rename_i hne
        have hl2 : l2 = lockRefId r0 := not_not.mp hne
        rcases List.mem_cons.mp hr with hh | hh
        · subst hh
          refine addLocks_mono rest dict h _ _ ?_
          rw [hl2] at hsome
          exact hsome
        · exact ih dict h r hh
    · rename_i hnone
      rcases List.mem_cons.mp hr with hh | hh
      · subst hh
        refine addLocks_mono rest _ h _ _ ?_
        simp [lookupLock]
      · exact ih _ h r hh

theorem checkLocksGo_mono {d2 : List (String × Lock)} :
    ∀ bs dict, checkLocksGo dict bs = .ok d2 →
    ∀ n l, lookupLock dict n = some l → lookupLock d2 n = some l := by
  intro bs
  induction bs with
  | nil =>
    intro dict h n l hl
    injection h with h
    subst h
    exact hl
  | cons b rest ih =>
    intro dict h n l hl
    simp only [checkLocksGo] at h
    obtain ⟨dmid, hA, h⟩ := andThenE_ok h
    exact ih dmid h n l (addLocks_mono _ _ hA n l hl)

theorem checkLocksGo_sound {d2 : List (String × Lock)} :
    ∀ bs dict, checkLocksGo dict bs = .ok d2 →
    ∀ b ∈ bs, ∀ r ∈ lockRefsOfBuilder b,
      lookupLock d2 (lockRefId r).name = some (lockRefId r) := by
  intro bs
  induction bs with
  | nil =>
    intro dict h b hb
    cases hb
  | cons b0 rest ih =>
    intro dict h b hb
    simp only [checkLocksGo] at h
    obtain ⟨dmid, hA, h2⟩ := andThenE_ok h
    have h3 : checkLocksGo dmid rest = .ok d2 := h2
    rcases List.mem_cons.mp hb with hh | hh
    · subst hh
      intro r hr
      exact checkLocksGo_mono rest dmid h3 _ _ (addLocks_sound _ _ hA r hr)
    · exact ih dmid h3 b hh

/-! ## Claim C6 -/

/-- C6: whenever `loadConfig` accepts a configuration, the validated
builder list has pairwise distinct names none of which starts with an
underscore, pairwise distinct build directories (each defaulted to
`safeTranslate` of the name when absent), slave references that all
resolve in the declared slave list, and lock references in which any two
locks sharing a name are the same lock identity. -/
theorem c6_validation_invariants
    (st : MasterState) (env : Env) (cfg : RawConfig) (co : Bool)
    (v : ValidatedConfig) (st1 : MasterState)
    (_hok : (loadConfig st env cfg co).1 = .ok ())
    (hv : loadConfigValidate st cfg = (.ok v, st1)) :
    (v.builders.map NormBuilder.name).Nodup
    ∧ (∀ b ∈ v.builders, ¬ startsWithUnderscore b.name)
    ∧ (v.builders.map NormBuilder.builddir).Nodup
    ∧ (∀ b ∈ v.builders,
        (∀ sn, b.slavename = some sn → sn ∈ v.slaves.map SlaveSpec.slavename)
        ∧ ∀ n ∈ b.slavenames, n ∈ v.slaves.map SlaveSpec.slavename)
    ∧ (∃ bspecs, convertBuilders (cfg.builders.getD []) = .ok bspecs
        ∧ List.Forall₂ (fun b nb => nb.name = b.name
            ∧ nb.builddir = b.builddir.getD (safeTranslate b.name))
          bspecs v.builders)
    ∧ (∀ b1 ∈ v.builders, ∀ b2 ∈ v.builders,
        ∀ r1 ∈ lockRefsOfBuilder b1, ∀ r2 ∈ lockRefsOfBuilder b2,
          (lockRefId r1).name = (lockRefId r2).name → lockRefId r1 = lockRefId r2) := by
  obtain ⟨hP, hA, hM⟩ := loadConfigValidate_ok hv
  obtain ⟨hres, huniq, hdb, ⟨bspecs, hconv, hbld⟩, ⟨d, hlocks⟩, hsl, hurl, hpoll⟩ :=
    validateMain_ok_parts hM
  obtain ⟨hn, _, hd, _, hu, hs, hf⟩ := checkBuildersGo_spec bspecs [] [] _ hbld
  refine ⟨hn, hu, hd, ?_, ⟨bspecs, hconv, hf⟩, ?_⟩
  · intro b hb
    rw [hsl]
    exact hs b hb
  · intro b1 hb1 b2 hb2 r1 hr1 r2 hr2 hnm
    have e1 := checkLocksGo_sound v.builders [] hlocks b1 hb1 r1 hr1
    have e2 := checkLocksGo_sound v.builders [] hlocks b2 hb2 r2 hr2
    rw [hnm] at e1
    rw [e1] at e2
    injection e2

/-! ## Claim C4 -/

/-- C4: once a successful load has set `db_url` and `db_poll_interval` on
the master, any reconfiguration whose effective `db_url` or
`db_poll_interval` differs fails, and the live values are unchanged by
the failed call. -/
theorem c4_db_settings_write_once
    (st : MasterState) (env : Env) (cfg : RawConfig) (u : String) (w : PyVal)
    (hu : st.db_url = some u) (hw : st.db_poll_interval = .set w)
    (hdiff : cfg.db_url.getD "sqlite:///state.sqlite" ≠ u
      ∨ cfg.db_poll_interval ≠ w) :
    (∃ e, (loadConfig st env cfg false).1 = .error e)
    ∧ (loadConfig st env cfg false).2.1.db_url = some u
    ∧ (loadConfig st env cfg false).2.1.db_poll_interval = .set w := by
  have hfields := loadConfigValidate_fields st cfg
  rcases hval : loadConfigValidate st cfg with ⟨r, st1⟩
  rw [hval] at hfields
  cases r with
  | error e =>
    rw [loadConfig_of_validate_error hval]
    exact ⟨⟨e, rfl⟩, by rw [show st1.db_url = st.db_url from hfields.1, hu],
      by rw [show st1.db_poll_interval = st.db_poll_interval from hfields.2.1, hw]⟩
  | ok v =>
    exfalso
    obtain ⟨hP, hA, hM⟩ := loadConfigValidate_ok hval
    obtain ⟨_, _, hdbset, _, _, _, _, _⟩ := validateMain_ok_parts hM
    obtain ⟨hurl, _, hpoll⟩ := checkDbSettings_ok hdbset
    have h1 : st1.db_url = some u := by rw [hfields.1, hu]
    have h2 : st1.db_poll_interval = .set w := by rw [hfields.2.1, hw]
    rcases hdiff with hd | hd
    · exact hd (hurl u h1)
    · exact hd (hpoll w h2)

/-! ## Claim C8 -/

/-- C8: a configuration whose slaves list uses a reserved name or repeats
a name fails the load with a schema error (except that a reconfig that
also sets `changeHorizon` on a master without a connector dies of the C2
AttributeError first), and the apply phase never starts: the trace is
empty and every live field other than the changeHorizon scalars is
untouched. The uniqueness half of the check is modelled from the spec
(`checkSlavesUnique`). -/
theorem c8_slave_name_validation
    (st : MasterState) (env : Env) (cfg : RawConfig) (sl : List SlaveSpec)
    (hsl : cfg.slaves = some sl)
    (hbad : (∃ s ∈ sl, s.slavename = "debug" ∨ s.slavename = "change"
        ∨ s.slavename = "status")
      ∨ ¬ (sl.map SlaveSpec.slavename).Nodup) :
    (∃ e, (loadConfig st env cfg false).1 = .error e
      ∧ (e.isSchemaError = true
        ∨ (st.db = none ∧ ∃ n, cfg.changeHorizon = .pyInt n)))
    ∧ (loadConfig st env cfg false).2.2 = []
    ∧ (loadConfig st env cfg false).2.1.db_url = st.db_url
    ∧ (loadConfig st env cfg false).2.1.db_poll_interval = st.db_poll_interval
    ∧ (loadConfig st env cfg false).2.1.botmaster_builders
        = st.botmaster_builders
    ∧ (loadConfig st env cfg false).2.1.schedulerNames = st.schedulerNames
    ∧ (loadConfig st env cfg false).2.1.statusTargets = st.statusTargets
    ∧ (loadConfig st env cfg false).2.1.change_svc_sources
        = st.change_svc_sources
    ∧ (loadConfig st env cfg false).2.1.readConfig = st.readConfig := by
  have hfields := loadConfigValidate_fields st cfg
  rcases hval : loadConfigValidate st cfg with ⟨r, st1⟩
  rw [hval] at hfields
  cases r with
  | error e =>
    rw [loadConfig_of_validate_error hval]
    exact ⟨⟨e, rfl, loadConfigValidate_error hval⟩, rfl, hfields.1,
      hfields.2.1, hfields.2.2.2.2.1, hfields.2.2.2.2.2.1,
      hfields.2.2.2.1, hfields.2.2.1, hfields.2.2.2.2.2.2.2.2⟩
  | ok v =>
    exfalso
    obtain ⟨hP, hA, hM⟩ := loadConfigValidate_ok hval
    obtain ⟨hres, huniq, _, _, _, _, _, _⟩ := validateMain_ok_parts hM
    rw [hsl] at hres huniq
    simp only [Option.getD_some] at hres huniq
    rcases hbad with ⟨s, hs, hbadname⟩ | hnodup
    · exact checkSlavesReserved_ok hres s hs hbadname
    · exact hnodup (checkSlavesUnique_ok huniq)

/-! ## Claim C2 -/

/-- C2 (code bug): a non-checkOnly load that sets `changeHorizon` and
fails validation (here: the reserved slave name `debug`) leaves the live
graph mutated: `change_svc.changeHorizon` and `db.changeHorizon` carry
the new value although the load failed. On a first load the
`self.db.changeHorizon` write itself raises AttributeError after
`change_svc.changeHorizon` was already written. -/
theorem c2_partial_apply_on_failed_validation :
    (loadConfig stLive envOk cfgHorizonReserved false).1
        = .error (.keyError "reserved name used for a bot")
    ∧ (loadConfig stLive envOk cfgHorizonReserved false).2.1.change_svc_changeHorizon
        = some 5
    ∧ (loadConfig stLive envOk cfgHorizonReserved false).2.1.db
        = some { changeHorizon := some 5 }
    ∧ stLive.change_svc_changeHorizon = none
    ∧ (loadConfig stLive envOk cfgHorizonReserved false).2.1 ≠ stLive
    ∧ (loadConfig stFresh envOk { cfgBase with changeHorizon := .pyInt 5 } false).1
        = .error (.attributeError "NoneType object has no attribute changeHorizon")
    ∧ (loadConfig stFresh envOk { cfgBase with changeHorizon := .pyInt 5 } false).2.1.change_svc_changeHorizon
        = some 5 := by
  refine ⟨?_, ?_, ?_, ?_, ?_, ?_, ?_⟩ <;> decide

/-! ## Lemmas about the apply phase -/

theorem markersOf_append (a b : List Ev) :
    markersOf (a ++ b) = markersOf a ++ markersOf b := by
  simp [markersOf, List.filterMap_append]

theorem stepSpec_database (env : Env) (dburl : String) (dbpoll : PyVal) :
    stepSpec [StepName.database] (loadConfig_Database env dburl dbpoll) := by
  intro st
  simp only [loadConfig_Database, loadDatabase]
  cases hdb : st.db with
  | some d => simp [markersOf]
  | none =>
    cases hcur : env.dbSchemaCurrent with
    | false => simp [markersOf]
    | true =>
      cases htr : dbpoll.truthy with
      | false => simp [markersOf]
      | true => simp [markersOf]

theorem stepSpec_slaves (env : Env) :
    stepSpec [StepName.slaves] (loadConfig_Slaves env) := by
  intro st
  simp only [loadConfig_Slaves]
  cases env.slavesResult <;> simp [markersOf]

theorem stepSpec_manhole (m : Option Nat) :
    stepSpec [] (applyManhole m) := by
  intro st
  simp only [applyManhole]
  split
  · simp [markersOf]
  · cases st.manhole <;> cases m <;> simp [markersOf]

theorem stepSpec_builders (env : Env) (bs : List NormBuilder) :
    stepSpec [StepName.builders] (loadConfig_Builders env bs) := by
  intro st
  simp only [loadConfig_Builders]
  split
  · cases env.setBuildersResult <;> simp [markersOf]
  · simp [markersOf]

theorem stepSpec_status (env : Env) (targets : List Nat) :
    stepSpec [StepName.statusTargets] (loadConfig_status env targets) := by
  intro st
  simp only [loadConfig_status]
  cases env.statusResult <;> simp [markersOf]

theorem stepSpec_schedulers (env : Env) (scheds : List SchedSpec) :
    stepSpec [StepName.schedulers] (loadConfig_Schedulers env scheds) := by
  intro st
  simp only [loadConfig_Schedulers]
  cases env.schedulersResult <;> simp [markersOf]

theorem stepSpec_sources (env : Env) (sources : List Nat) :
    stepSpec [StepName.changeSources] (loadConfig_Sources env sources) := by
  intro st
  simp only [loadConfig_Sources]
  cases env.sourcesResult <;> simp [markersOf]

theorem stepSpec_debug (pw : Option String) :
    stepSpec [StepName.debugClient] (loadConfig_DebugClient pw) := by
  intro st
  simp only [loadConfig_DebugClient]
  cases pw with
  | none => cases st.debugClientRegistration <;> simp [markersOf]
  | some p =>
    cases hp : p.isEmpty <;> cases st.debugClientRegistration <;>
      simp [markersOf, hp]

theorem applySteps_spec (env : Env) (v : ValidatedConfig) :
    List.Forall₂ stepSpec applyStepMarkers (applySteps env v) := by
  refine List.Forall₂.cons (stepSpec_database env v.db_url v.db_poll_interval)
    (List.Forall₂.cons (stepSpec_slaves env)
    (List.Forall₂.cons (stepSpec_manhole v.manhole)
    (List.Forall₂.cons (stepSpec_builders env v.builders)
    (List.Forall₂.cons (stepSpec_status env v.status)
    (List.Forall₂.cons (stepSpec_schedulers env v.schedulers)
    (List.Forall₂.cons (stepSpec_sources env v.change_sources)
    (List.Forall₂.cons (stepSpec_debug v.debugPassword)
      List.Forall₂.nil)))))))

theorem runSteps_spec :
    ∀ (ns : List (List StepName)) (fs : List (MasterState → StepRes)),
    List.Forall₂ stepSpec ns fs → ∀ st,
    (∃ k, k ≤ ns.length
      ∧ markersOf (runSteps st fs).2.2 = (ns.take k).flatten
      ∧ ((runSteps st fs).1 = .ok () → k = ns.length))
    ∧ Ev.setReadConfig ∉ (runSteps st fs).2.2
    ∧ Ev.triggerLoop ∉ (runSteps st fs).2.2
    ∧ (runSteps st fs).2.1.readConfig = st.readConfig := by
  intro ns fs h
  induction h with
  | nil =>
    intro st
    exact ⟨⟨0, by simp, by simp [runSteps, markersOf], by simp⟩,
      by simp [runSteps], by simp [runSteps], by simp [runSteps]⟩
  | @cons ms f ns' fs' hspec hrest ih =>
    intro st
    obtain ⟨hm, hnr, hnt, hrc⟩ := hspec st
    rcases hf : f st with ⟨r1, st1, evs1⟩
    rw [hf] at hm hnr hnt hrc
    simp only at hm hnr hnt hrc
    cases r1 with
    | error e =>
      have hrun : runSteps st (f :: fs') = (.error e, st1, evs1) := by
        simp [runSteps, hf]
      rw [hrun]
      refine ⟨⟨1, by simp, ?_, ?_⟩, hnr, hnt, hrc⟩
      · simpa using hm
      · intro hok
        cases hok
    | ok u =>
      cases u
      have hrun : runSteps st (f :: fs')
          = ((runSteps st1 fs').1, (runSteps st1 fs').2.1,
             evs1 ++ (runSteps st1 fs').2.2) := by
        simp [runSteps, hf]
      rw [hrun]
      obtain ⟨⟨k, hk, hmk, hkf⟩, h2, h3, h4⟩ := ih st1
      refine ⟨⟨k + 1, by simpa using hk, ?_, ?_⟩, ?_, ?_, ?_⟩
      · rw [markersOf_append, hm, hmk]
        simp [List.take]
      · intro hok
        simp [hkf hok]
      · rw [List.mem_append]
        push_neg
        exact ⟨hnr, h2⟩
      · rw [List.mem_append]
        push_neg
        exact ⟨hnt, h3⟩
      · rw [h4, hrc]

/-! ## Claim C7 -/

/-- C7: once validation has produced a ValidatedConfig, the apply phase
runs its steps in the fixed order database, slaves, builders, status
targets, schedulers, change sources, debug client (each marker appearing
only after the events of every earlier step); when the whole chain succeeds
the seven markers all appear, `readConfig` is set, and the trace ends
with the single configuration-read mark followed by the single
build-loop trigger; when any step fails, `readConfig` keeps its prior
value and no trigger is emitted. -/
theorem c7_reconfig_step_order
    (st : MasterState) (env : Env) (cfg : RawConfig)
    (v : ValidatedConfig) (st1 : MasterState)
    (hv : loadConfigValidate st cfg = (.ok v, st1)) :
    (∃ k, k ≤ 8 ∧ markersOf (loadConfig st env cfg false).2.2
        = (applyStepMarkers.take k).flatten)
    ∧ ((loadConfig st env cfg false).1 = .ok () →
        markersOf (loadConfig st env cfg false).2.2
          = [StepName.database, StepName.slaves, StepName.builders,
             StepName.statusTargets, StepName.schedulers,
             StepName.changeSources, StepName.debugClient]
        ∧ (loadConfig st env cfg false).2.1.readConfig = true
        ∧ ∃ t, (loadConfig st env cfg false).2.2
              = t ++ [Ev.setReadConfig, Ev.triggerLoop]
            ∧ Ev.setReadConfig ∉ t ∧ Ev.triggerLoop ∉ t)
    ∧ (∀ e, (loadConfig st env cfg false).1 = .error e →
        Ev.setReadConfig ∉ (loadConfig st env cfg false).2.2
        ∧ Ev.triggerLoop ∉ (loadConfig st env cfg false).2.2
        ∧ (loadConfig st env cfg false).2.1.readConfig = st.readConfig) := by
  have hfields := loadConfigValidate_fields st cfg
  rw [hv] at hfields
  rw [loadConfig_of_validate_ok hv]
  obtain ⟨⟨k, hk, hmk, hkf⟩, h2, h3, h4⟩ :=
    runSteps_spec applyStepMarkers (applySteps env v) (applySteps_spec env v) st1
  rcases hrs : runSteps st1 (applySteps env v) with ⟨r, st2, evs⟩
  rw [hrs] at hmk hkf h2 h3 h4
  simp only at hmk hkf h2 h3 h4
  cases r with
  | error e =>
    have happ : loadConfigApply st1 env v = (.error e, st2, evs) := by
      simp [loadConfigApply, hrs]
    rw [happ]
    refine ⟨⟨k, by simpa [applyStepMarkers] using hk, hmk⟩, ?_, ?_⟩
    · intro hok
      cases hok
    · intro e2 he2
      exact ⟨h2, h3, by rw [h4, hfields.2.2.2.2.2.2.2.2]⟩
  | ok u =>
    cases u
    have hk8 : k = 8 := hkf rfl
    subst hk8
    have happ : loadConfigApply st1 env v
        = (.ok (), { st2 with readConfig := true },
           evs ++ [Ev.setReadConfig, Ev.triggerLoop]) := by
      simp [loadConfigApply, hrs]
    rw [happ]
    refine ⟨⟨8, by simp, ?_⟩, ?_, ?_⟩
    · rw [markersOf_append, hmk]
      simp [markersOf, applyStepMarkers]
    · intro _
      refine ⟨?_, rfl, evs, rfl, h2, h3⟩
      rw [markersOf_append, hmk]
      simp [markersOf, applyStepMarkers]
    · intro e he
      cases he

/-! ## Claim C5 -/

/-- C5 as stated is refuted at `db_poll_interval = 0`: the interval is
configured (set), yet `addChange` still delivers the change immediately,
because the source tests truthiness, not presence. -/
theorem c5_counterexample :
    stPoll0.db_poll_interval = .set (.pyInt 0)
    ∧ stPoll0.db_poll_interval ≠ .unset
    ∧ BuildMaster.addChange stPoll0 fieldsC (.ok chgC)
        = (.ok chgC, [Ev.dbWrite fieldsC, Ev.deliverChange chgC])
    ∧ Ev.deliverChange chgC ∈ (BuildMaster.addChange stPoll0 fieldsC (.ok chgC)).2 := by
  refine ⟨rfl, ?_, rfl, ?_⟩ <;> decide

/-- C5 amended: `addChange` writes the change to the database first; on a
successful write the deferred resolves to the change and the change is
delivered on the changes bus exactly once if and only if the live
`db_poll_interval` is falsy (unset counts as truthy only through the
`_Unset` sentinel, a configured 0 or None is falsy); on a failed write
nothing is delivered and the failure propagates. -/
theorem c5_addChange_spec (st : MasterState) (fields : ChangeFields)
    (dbRes : Except PyErr Change) (d : DbState) :
    (∀ e, dbRes = .error e →
      BuildMaster.addChange { st with db := some d } fields dbRes
        = (.error e, [Ev.dbWrite fields]))
    ∧ (∀ c, dbRes = .ok c →
      BuildMaster.addChange { st with db := some d } fields dbRes
        = (.ok c, Ev.dbWrite fields ::
            (if st.db_poll_interval.truthy then [] else [Ev.deliverChange c]))) := by
  constructor
  · intro e he
    subst he
    simp [BuildMaster.addChange]
  · intro c hc
    subst hc
    cases htr : st.db_poll_interval.truthy <;>
      simp [BuildMaster.addChange, htr]

/-- Witness for the amended C5 at scenario S4. -/
theorem c5_addChange_spec_witness :
    BuildMaster.addChange { stLive with db := some { changeHorizon := none } }
        fieldsC (.ok chgC)
      = (.ok chgC, Ev.dbWrite fieldsC ::
          (if stLive.db_poll_interval.truthy then []
           else [Ev.deliverChange chgC])) :=
  (c5_addChange_spec stLive fieldsC (.ok chgC) { changeHorizon := none }).2
    chgC rfl

/-! ## Claim C10 -/

/-- C10: a configured `db_poll_interval` of 0 passes the integer type
check, is falsy, installs no timers (`loadDatabase` behaves exactly as
with None), and `addChange` delivers immediately, exactly as when the
key is unset. -/
theorem c10_zero_poll_interval :
    noneOrInt (.pyInt 0) = true
    ∧ PyVal.truthy (.pyInt 0) = false
    ∧ (∀ st env, loadDatabase st env (.pyInt 0) = loadDatabase st env .pyNone)
    ∧ (∀ st env k iv, Ev.installTimer k iv ∉ (loadDatabase st env (.pyInt 0)).2.2)
    ∧ (∀ (st : MasterState) (fields : ChangeFields)
          (dbRes : Except PyErr Change),
        BuildMaster.addChange { st with db_poll_interval := .set (.pyInt 0) }
            fields dbRes
          = BuildMaster.addChange { st with db_poll_interval := .set .pyNone }
            fields dbRes)
    ∧ (∀ (st : MasterState) (d : DbState) (fields : ChangeFields) (c : Change),
        BuildMaster.addChange
            { st with db := some d, db_poll_interval := .set (.pyInt 0) }
            fields (.ok c)
          = (.ok c, [Ev.dbWrite fields, Ev.deliverChange c])) := by
  refine ⟨rfl, rfl, ?_, ?_, ?_, ?_⟩
  · intro st env
    simp only [loadDatabase]
    cases st.db <;> cases env.dbSchemaCurrent <;> simp [PyVal.truthy]
  · intro st env k iv
    simp only [loadDatabase]
    cases st.db <;> cases env.dbSchemaCurrent <;> simp [PyVal.truthy]
  · intro st fields dbRes
    simp only [BuildMaster.addChange]
    cases st.db <;> cases dbRes <;> simp [DbPoll.truthy, PyVal.truthy]
  · intro st d fields c
    simp [BuildMaster.addChange, DbPoll.truthy, PyVal.truthy]

/-! ## Claim C9 -/

/-- C9 (code bug): `Control.addChange` cannot forward to the coordinator -
it passes the change positionally to a keyword-only method, raising
TypeError with nothing written or delivered, and its body has no return
statement - while the coordinator method itself would resolve to the
change and deliver it; `Control.addBuildset` and `Control.getBuilder`
do forward as the claim says. -/
theorem c9_control_facade :
    Control.addChange stB fieldsC
      = (.error (.typeError "addChange takes exactly 1 argument, 2 given"), [])
    ∧ BuildMaster.addChange stB fieldsC (.ok chgC)
      = (.ok chgC, [Ev.dbWrite fieldsC, Ev.deliverChange chgC])
    ∧ Control.addChange stB fieldsC ≠ BuildMaster.addChange stB fieldsC (.ok chgC)
    ∧ delivered (Control.addChange stB fieldsC).2 = []
    ∧ (∀ st fields dbRes,
        Control.addBuildset st fields dbRes
          = BuildMaster.addBuildset st fields dbRes)
    ∧ Control.getBuilder stB "b1" = .ok { builder := nb1 }
    ∧ Control.getBuilder stB "nope" = .error (.keyError "no such builder") := by
  refine ⟨rfl, by decide, by decide, rfl, fun st fields dbRes => rfl,
    by decide, by decide⟩

/-! ## Remaining witnesses -/

/-- Witness for C4: a reconfig of a live master pointing at a different
database URL. -/
theorem c4_db_settings_write_once_witness :
    (∃ e, (loadConfig stLive envOk cfgOtherDb false).1 = .error e)
    ∧ (loadConfig stLive envOk cfgOtherDb false).2.1.db_url
        = some "sqlite:///state.sqlite"
    ∧ (loadConfig stLive envOk cfgOtherDb false).2.1.db_poll_interval
        = .set .pyNone :=
  c4_db_settings_write_once stLive envOk cfgOtherDb "sqlite:///state.sqlite"
    .pyNone rfl rfl (Or.inl (by decide))

/-- Witness for C6: the configuration of scenario S1. -/
theorem c6_validation_invariants_witness :
    (vGood.builders.map NormBuilder.name).Nodup
    ∧ (∀ b ∈ vGood.builders, ¬ startsWithUnderscore b.name)
    ∧ (vGood.builders.map NormBuilder.builddir).Nodup
    ∧ (∀ b ∈ vGood.builders,
        (∀ sn, b.slavename = some sn
          → sn ∈ vGood.slaves.map SlaveSpec.slavename)
        ∧ ∀ n ∈ b.slavenames, n ∈ vGood.slaves.map SlaveSpec.slavename)
    ∧ (∃ bspecs, convertBuilders (cfgGood.builders.getD []) = .ok bspecs
        ∧ List.Forall₂ (fun b nb => nb.name = b.name
            ∧ nb.builddir = b.builddir.getD (safeTranslate b.name))
          bspecs vGood.builders)
    ∧ (∀ b1 ∈ vGood.builders, ∀ b2 ∈ vGood.builders,
        ∀ r1 ∈ lockRefsOfBuilder b1, ∀ r2 ∈ lockRefsOfBuilder b2,
          (lockRefId r1).name = (lockRefId r2).name
            → lockRefId r1 = lockRefId r2) :=
  c6_validation_invariants stFresh envOk cfgGood false vGood stFresh
    (by decide) (by decide)

/-- Witness for C7: the configuration of scenario S1 applied to a fresh
master. -/
theorem c7_reconfig_step_order_witness :
    (∃ k, k ≤ 8 ∧ markersOf (loadConfig stFresh envOk cfgGood false).2.2
        = (applyStepMarkers.take k).flatten)
    ∧ ((loadConfig stFresh envOk cfgGood false).1 = .ok () →
        markersOf (loadConfig stFresh envOk cfgGood false).2.2
          = [StepName.database, StepName.slaves, StepName.builders,
             StepName.statusTargets, StepName.schedulers,
             StepName.changeSources, StepName.debugClient]
        ∧ (loadConfig stFresh envOk cfgGood false).2.1.readConfig = true
        ∧ ∃ t, (loadConfig stFresh envOk cfgGood false).2.2
              = t ++ [Ev.setReadConfig, Ev.triggerLoop]
            ∧ Ev.setReadConfig ∉ t ∧ Ev.triggerLoop ∉ t)
    ∧ (∀ e, (loadConfig stFresh envOk cfgGood false).1 = .error e →
        Ev.setReadConfig ∉ (loadConfig stFresh envOk cfgGood false).2.2
        ∧ Ev.triggerLoop ∉ (loadConfig stFresh envOk cfgGood false).2.2
        ∧ (loadConfig stFresh envOk cfgGood false).2.1.readConfig
            = stFresh.readConfig) :=
  c7_reconfig_step_order stFresh envOk cfgGood vGood stFresh (by decide)

/-- Witness for C8: a slaves list that repeats the name s1 (exercising
the spec-modelled uniqueness check). -/
theorem c8_slave_name_validation_witness :
    (∃ e, (loadConfig stLive envOk cfgDupSlaves false).1 = .error e
      ∧ (e.isSchemaError = true
        ∨ (stLive.db = none ∧ ∃ n, cfgDupSlaves.changeHorizon = .pyInt n)))
    ∧ (loadConfig stLive envOk cfgDupSlaves false).2.2 = []
    ∧ (loadConfig stLive envOk cfgDupSlaves false).2.1.db_url = stLive.db_url
    ∧ (loadConfig stLive envOk cfgDupSlaves false).2.1.db_poll_interval
        = stLive.db_poll_interval
    ∧ (loadConfig stLive envOk cfgDupSlaves false).2.1.botmaster_builders
        = stLive.botmaster_builders
    ∧ (loadConfig stLive envOk cfgDupSlaves false).2.1.schedulerNames
        = stLive.schedulerNames
    ∧ (loadConfig stLive envOk cfgDupSlaves false).2.1.statusTargets
        = stLive.statusTargets
    ∧ (loadConfig stLive envOk cfgDupSlaves false).2.1.change_svc_sources
        = stLive.change_svc_sources
    ∧ (loadConfig stLive envOk cfgDupSlaves false).2.1.readConfig
        = stLive.readConfig :=
  c8_slave_name_validation stLive envOk cfgDupSlaves
    [{ slavename := "s1" }, { slavename := "s1" }] rfl (Or.inr (by decide))

end Buildbot
